import Mathlib

/-! Digital pin configuration of the PIC24 port (`src/platform/pic24/pyFuncsInC.c`).

A shallow embedding of the C functions `readBitsC`, `getBit`, `setBit`,
`digitalPinInBounds`, `digitalPinExists`, `digitalOpenDrainPinExists`,
`setPinIsInput`, `setPinIsDigital`, `setPinIsOpenDrain`,
`setPinPullDirection`, `unmapPin` and `configDigitalPinC`.

Conventions of the embedding.

* `uint16_t`, `uint8_t` values are natural numbers; `int16_t` is an integer.
  The target compiler has a 16-bit `int`, so arithmetic on two `uint16_t`
  operands is unsigned 16-bit arithmetic and is reduced modulo `2 ^ 16`
  wherever the C expression can exceed 16 bits.
* Everything declared in headers that are not part of the source file (chip
  tables, feature flags, sentinel constants) is a field of `Chip`.
* The special function registers are grouped by the named register the C code
  takes the address of (`&TRISA`, `&ODCA`, `&AD1PCFGL`, `&AD2PCFGL`, `&CNPU1`,
  `&CNPD1`): each family maps a word offset from that register to the 16-bit
  word found there. The remap selector bit-fields are named objects of their
  own.
* A failed `ASSERT` and an array read outside the array are `Outcome.fault`.
* `EXCEPTION_UNLESS(c, PM_RET_EX_VAL, text, ...)` with `c` false returns from
  the function at once with `PM_RET_EX_VAL` and the text; the registers stay
  as they are at that point.
* The frame handling of the two native entry points (`CHECK_NUM_ARGS`,
  `GET_UINT16`, `GET_BOOL`, `GET_INT16`, `int_new`, `NATIVE_SET_TOS`) and the
  diagnostic `printf` of `readBitsC` are outside the embedding: the entry
  points are functions of their typed arguments.
-/

namespace PyFuncsInC

/-! ## Results -/

/-- The text an `EXCEPTION_UNLESS` reports: the format string of the C call and
the values of its variadic arguments, in order. -/
structure Raised where
  fmt : String
  args : List Nat
deriving DecidableEq, Repr

/-- The two `PmReturn_t` values this file produces; the exception carries the
text reported with it. -/
inductive PmReturn where
  | PM_RET_OK : PmReturn
  | PM_RET_EX_VAL (e : Raised) : PmReturn
deriving DecidableEq, Repr

/-- What a call leaves behind: a return value together with the state at the
moment of return, or a fault (failed assertion, read outside an array). -/
inductive Outcome (σ : Type) where
  | done (retval : PmReturn) (regs : σ) : Outcome σ
  | fault : Outcome σ

/-! ## Chip description (declarations outside the source file) -/

/-- One entry of `anCnMap`: the analog channel and the change-notification
number of a port pin. -/
structure AnCnMap where
  u8_anPin : Nat
  u8_cnPin : Nat
deriving DecidableEq, Repr

/-- The peripheral input selector bit-fields `unmapPin` sweeps, in source
order. -/
inductive RpInput where
  | U1CTSR | U1RXR | U2CTSR | U2RXR | SCK1R | SDI1R | SS1R | SCK2R | SDI2R | SS2R | C1RXR
deriving DecidableEq, Repr

/-- Everything the source file takes from its headers. The tables are C
arrays, here lists; `defRPINR r` and `defRPOR n` say whether the preprocessor
symbol of a selector bit-field is defined; `isRemappable rp` is the value of
`GET_EXTENDED_BIT(u32_isRemappable, rp)`. -/
structure Chip where
  NUM_DIGITAL_PORTS : Nat
  u16_digitalPinPresent : List Nat
  u16_digitalPinOpenDrainPresent : List Nat
  anCnMap : List AnCnMap
  UNDEF_AN_PIN : Nat
  UNDEF_CN_PIN : Nat
  def_AD2IF : Bool
  HAS_PULL_DOWNS : Bool
  HAS_REMAPPABLE_PINS : Bool
  isRemappable : Nat → Bool
  IN_PIN_PPS_VSS : Nat
  OUT_FN_PPS_NULL : Nat
  defRPINR : RpInput → Bool
  defRPOR : Nat → Bool

/-- The tables have the sizes their index ranges call for: one word per port
in the two presence tables, one `anCnMap` entry per port pin. -/
structure Chip.TablesSized (chip : Chip) : Prop where
  present : chip.u16_digitalPinPresent.length = chip.NUM_DIGITAL_PORTS
  openDrain : chip.u16_digitalPinOpenDrainPresent.length = chip.NUM_DIGITAL_PORTS
  anCn : chip.anCnMap.length = chip.NUM_DIGITAL_PORTS * 16

/-- Modelled from the spec: `PORT_B_INDEX` is declared in a header that is not
part of the source file; ports are numbered 0 = A, 1 = B, and so on. -/
def PORT_B_INDEX : Nat := 1

/-- Modelled from the spec: `PORT_C_INDEX` is declared in a header that is not
part of the source file; ports are numbered 0 = A, 1 = B, 2 = C. -/
def PORT_C_INDEX : Nat := 2

/-! ## Machine state -/

/-- The mutable state the functions touch: the static `u16_ioPortControlOffset`
and the special function registers. -/
@[ext]
structure Regs where
  u16_ioPortControlOffset : Nat
  TRIS : Nat → Nat
  ODC : Nat → Nat
  AD1PCFG : Nat → Nat
  AD2PCFG : Nat → Nat
  CNPU : Nat → Nat
  CNPD : Nat → Nat
  RPINR : RpInput → Nat
  RPOR : Nat → Nat

/-! ## Bit accessor -/

/-- Source `getBit`: `(u16_bitfield & (1 << u16_bit)) ? C_TRUE : C_FALSE`
behind `ASSERT(u16_bit < 16)`. -/
def getBit (u16_bitfield u16_bit : Nat) : Option Bool :=
  if u16_bit < 16 then some (decide (u16_bitfield &&& (1 <<< u16_bit) ≠ 0)) else none

/-- Source `setBit`, on the word the pointer refers to: `|= 1 << u16_bit` or
`&= ~(1 << u16_bit)` behind `ASSERT(u16_bit < 16)`; the result is the word
stored back. The 16-bit complement is the exclusive or with `0xFFFF`. -/
def setBit (word u16_bit : Nat) (b_val : Bool) : Option Nat :=
  if u16_bit < 16 then
    some (if b_val then (word ||| (1 <<< u16_bit)) % 65536
      else (word &&& (0xFFFF ^^^ (1 <<< u16_bit))) % 65536)
  else none

/-- The call `setBit(base + offset, u16_bit, b_val)` on a register family: one
read-modify-write of the word at `offset`. -/
def setBitAt (family : Nat → Nat) (offset u16_bit : Nat) (b_val : Bool) :
    Option (Nat → Nat) :=
  (setBit (family offset) u16_bit b_val).map (Function.update family offset)

/-- Modelled from the spec: the macro `SET_EXTENDED_BIT(base, bit, value)` is
declared in a header that is not part of the source file. It addresses bit
`bit` of a bit-field that extends over consecutive 16-bit words starting at
`base`: `setBit` on word `bit >> 4`, bit `bit & 0xF`. -/
def SET_EXTENDED_BIT (family : Nat → Nat) (bit : Nat) (b_val : Bool) :
    Option (Nat → Nat) :=
  setBitAt family (bit >>> 4) (bit &&& 0xF) b_val

/-- The bit `SET_EXTENDED_BIT(base, bit, _)` addresses, read back with
`getBit`. -/
def extendedBit (family : Nat → Nat) (bit : Nat) : Option Bool :=
  getBit (family (bit >>> 4)) (bit &&& 0xF)

/-! ## Pin validator -/

/-- Source `digitalPinInBounds`. -/
def digitalPinInBounds (chip : Chip) (u16_port u16_pin : Nat) : Bool :=
  if u16_port > chip.NUM_DIGITAL_PORTS then false
  else if u16_pin > 15 then false
  else true

/-- Source `digitalPinExists`; `none` is a read outside
`u16_digitalPinPresent` (or a failed assertion in `getBit`). -/
def digitalPinExists (chip : Chip) (u16_port u16_pin : Nat) : Option Bool :=
  if !digitalPinInBounds chip u16_port u16_pin then some false
  else
    match chip.u16_digitalPinPresent[u16_port]? with
    | none => none
    | some w => getBit w u16_pin

/-- Source `digitalOpenDrainPinExists`. -/
def digitalOpenDrainPinExists (chip : Chip) (u16_port u16_pin : Nat) : Option Bool :=
  if !digitalPinInBounds chip u16_port u16_pin then some false
  else
    match chip.u16_digitalPinOpenDrainPresent[u16_port]? with
    | none => none
    | some w => getBit w u16_pin

/-! ## Error texts -/

/-- The value of `(char) (u16_port + 'A')`: the sum reduced to eight bits. -/
def portLetter (u16_port : Nat) : Nat := (u16_port + 65) % 256

/-- Arguments `"Invalid pin %c%d.", (char) (u16_port + 'A'), u16_pin`. -/
def invalidPin (u16_port u16_pin : Nat) : Raised :=
  ⟨"Invalid pin %c%d.", [portLetter u16_port, u16_pin]⟩

/-- Arguments `"Pin %c%d does not support analog functionality."` with the
port letter and the pin. -/
def noAnalog (u16_port u16_pin : Nat) : Raised :=
  ⟨"Pin %c%d does not support analog functionality.", [portLetter u16_port, u16_pin]⟩

/-- Arguments `"The pin %c%d has no open-drain ability."` with the port letter
and the pin. -/
def noOpenDrain (u16_port u16_pin : Nat) : Raised :=
  ⟨"The pin %c%d has no open-drain ability.", [portLetter u16_port, u16_pin]⟩

/-- Arguments `"Pull-ups do not exist on %c%d."` with the port letter and the
pin. -/
def noPullUp (u16_port u16_pin : Nat) : Raised :=
  ⟨"Pull-ups do not exist on %c%d.", [portLetter u16_port, u16_pin]⟩

/-- The text `"Pull-downs do not exist on this chip."`. -/
def noPullDown : Raised :=
  ⟨"Pull-downs do not exist on this chip.", []⟩

/-! ## Capability setters -/

/-- Continue with the written state, or fault when the write did. -/
def afterWrite (w : Option Regs) (k : Regs → Outcome Regs) : Outcome Regs :=
  match w with
  | none => Outcome.fault
  | some s => k s

/-- The word offset `u16_port*u16_ioPortControlOffset` added to `&TRISA` or
`&ODCA`: an unsigned 16-bit product. -/
def portOffset (s : Regs) (u16_port : Nat) : Nat :=
  (u16_port * s.u16_ioPortControlOffset) % 65536

/-- The index `u16_port*16 + u16_pin` into `anCnMap`, in unsigned 16-bit
arithmetic. -/
def anCnIndex (u16_port u16_pin : Nat) : Nat :=
  (u16_port * 16 + u16_pin) % 65536

/-- Source `setPinIsInput`. -/
def setPinIsInput (chip : Chip) (s : Regs) (u16_port u16_pin : Nat) (b_isInput : Bool) :
    Outcome Regs :=
  match digitalPinExists chip u16_port u16_pin with
  | none => Outcome.fault
  | some false => Outcome.done (PmReturn.PM_RET_EX_VAL (invalidPin u16_port u16_pin)) s
  | some true =>
    if s.u16_ioPortControlOffset = 0 then Outcome.fault
    else
      afterWrite
        ((setBitAt s.TRIS (portOffset s u16_port) u16_pin b_isInput).map
          fun f => { s with TRIS := f })
        fun s1 => Outcome.done PmReturn.PM_RET_OK s1

/-- Source `setPinIsDigital`. The local `u8_anPin` is loaded from the
`u8_cnPin` member of the map entry, as in the source. -/
def setPinIsDigital (chip : Chip) (s : Regs) (u16_port u16_pin : Nat) (b_isDigital : Bool) :
    Outcome Regs :=
  match digitalPinExists chip u16_port u16_pin with
  | none => Outcome.fault
  | some false => Outcome.done (PmReturn.PM_RET_EX_VAL (invalidPin u16_port u16_pin)) s
  | some true =>
    match chip.anCnMap[anCnIndex u16_port u16_pin]? with
    | none => Outcome.fault
    | some entry =>
      let u8_anPin := entry.u8_cnPin
      if u8_anPin ≠ chip.UNDEF_AN_PIN then
        afterWrite
          ((SET_EXTENDED_BIT s.AD1PCFG u8_anPin b_isDigital).map
            fun f => { s with AD1PCFG := f })
          fun s1 =>
            if chip.def_AD2IF then
              afterWrite
                ((SET_EXTENDED_BIT s1.AD2PCFG u8_anPin b_isDigital).map
                  fun f => { s1 with AD2PCFG := f })
                fun s2 => Outcome.done PmReturn.PM_RET_OK s2
            else Outcome.done PmReturn.PM_RET_OK s1
      else if b_isDigital then Outcome.done PmReturn.PM_RET_OK s
      else Outcome.done (PmReturn.PM_RET_EX_VAL (noAnalog u16_port u16_pin)) s

/-- Source `setPinIsOpenDrain`. -/
def setPinIsOpenDrain (chip : Chip) (s : Regs) (u16_port u16_pin : Nat)
    (b_isOpenDrain : Bool) : Outcome Regs :=
  match digitalPinExists chip u16_port u16_pin with
  | none => Outcome.fault
  | some false => Outcome.done (PmReturn.PM_RET_EX_VAL (invalidPin u16_port u16_pin)) s
  | some true =>
    if s.u16_ioPortControlOffset = 0 then Outcome.fault
    else
      match digitalOpenDrainPinExists chip u16_port u16_pin with
      | none => Outcome.fault
      | some true =>
        afterWrite
          ((setBitAt s.ODC (portOffset s u16_port) u16_pin b_isOpenDrain).map
            fun f => { s with ODC := f })
          fun s1 => Outcome.done PmReturn.PM_RET_OK s1
      | some false =>
        if !b_isOpenDrain then Outcome.done PmReturn.PM_RET_OK s
        else Outcome.done (PmReturn.PM_RET_EX_VAL (noOpenDrain u16_port u16_pin)) s

/-- The statement `SET_EXTENDED_BIT(&CNPU1, bit, value)`. -/
def writeCNPU (s : Regs) (bit : Nat) (b_val : Bool) : Option Regs :=
  (SET_EXTENDED_BIT s.CNPU bit b_val).map fun f => { s with CNPU := f }

/-- The statement `SET_EXTENDED_BIT(&CNPD1, bit, value)`. -/
def writeCNPD (s : Regs) (bit : Nat) (b_val : Bool) : Option Regs :=
  (SET_EXTENDED_BIT s.CNPD bit b_val).map fun f => { s with CNPD := f }

/-- Source `setPinPullDirection`. -/
def setPinPullDirection (chip : Chip) (s : Regs) (u16_port u16_pin : Nat) (i16_dir : Int) :
    Outcome Regs :=
  match digitalPinExists chip u16_port u16_pin with
  | none => Outcome.fault
  | some false => Outcome.done (PmReturn.PM_RET_EX_VAL (invalidPin u16_port u16_pin)) s
  | some true =>
    if s.u16_ioPortControlOffset = 0 then Outcome.fault
    else
      match chip.anCnMap[anCnIndex u16_port u16_pin]? with
      | none => Outcome.fault
      | some entry =>
        let u8_cnPin := entry.u8_cnPin
        if i16_dir = 0 then
          if u8_cnPin ≠ chip.UNDEF_CN_PIN then
            afterWrite (writeCNPU s u8_cnPin false) fun s1 =>
              if chip.HAS_PULL_DOWNS then
                afterWrite (writeCNPD s1 u8_cnPin false) fun s2 =>
                  Outcome.done PmReturn.PM_RET_OK s2
              else Outcome.done PmReturn.PM_RET_OK s1
          else Outcome.done PmReturn.PM_RET_OK s
        else if i16_dir > 0 then
          if u8_cnPin ≠ chip.UNDEF_CN_PIN then
            afterWrite (writeCNPU s u8_cnPin true) fun s1 =>
              if chip.HAS_PULL_DOWNS then
                afterWrite (writeCNPD s1 u8_cnPin false) fun s2 =>
                  Outcome.done PmReturn.PM_RET_OK s2
              else Outcome.done PmReturn.PM_RET_OK s1
          else Outcome.done (PmReturn.PM_RET_EX_VAL (noPullUp u16_port u16_pin)) s
        else
          if chip.HAS_PULL_DOWNS then
            afterWrite (writeCNPD s u8_cnPin true) fun s1 =>
              if u8_cnPin ≠ chip.UNDEF_CN_PIN then
                afterWrite (writeCNPU s1 u8_cnPin false) fun s2 =>
                  Outcome.done PmReturn.PM_RET_OK s2
              else Outcome.done (PmReturn.PM_RET_EX_VAL (noPullUp u16_port u16_pin)) s1
          else Outcome.done (PmReturn.PM_RET_EX_VAL noPullDown) s

/-! ## Peripheral remap unmapper -/

/-- The selector bit-fields in the order the source sweeps them. -/
def rpInputs : List RpInput :=
  [RpInput.U1CTSR, RpInput.U1RXR, RpInput.U2CTSR, RpInput.U2RXR, RpInput.SCK1R,
   RpInput.SDI1R, RpInput.SS1R, RpInput.SCK2R, RpInput.SDI2R, RpInput.SS2R, RpInput.C1RXR]

/-- Source macro `UNMAP_PERIPHERAL_INPUT(rpinrBitfield, rpPin)` inside its
`#ifdef`: when the bit-field exists and holds `rpPin` it is set to
`IN_PIN_PPS_VSS`. -/
def UNMAP_PERIPHERAL_INPUT (chip : Chip) (rpPin : Nat) (s : Regs) (r : RpInput) : Regs :=
  if chip.defRPINR r then
    if s.RPINR r = rpPin then { s with RPINR := Function.update s.RPINR r chip.IN_PIN_PPS_VSS }
    else s
  else s

/-- The `switch (u16_rp)` of `unmapPin`: cases 0 to 30, each inside the
`#ifdef` of its register, store `OUT_FN_PPS_NULL`; every other value takes
the `default` branch. -/
def unmapOutput (chip : Chip) (u16_rp : Nat) (s : Regs) : Regs :=
  if u16_rp ≤ 30 ∧ chip.defRPOR u16_rp = true then
    { s with RPOR := Function.update s.RPOR u16_rp chip.OUT_FN_PPS_NULL }
  else s

/-- The remap slot `(u16_port - PORT_B_INDEX)*16 + u16_pin` in unsigned 16-bit
arithmetic. -/
def rpNumber (u16_port u16_pin : Nat) : Nat :=
  (((u16_port + 65536 - PORT_B_INDEX) % 65536) * 16 + u16_pin) % 65536

/-- Source `unmapPin` (compiled when `HAS_REMAPPABLE_PINS` is defined). -/
def unmapPin (chip : Chip) (s : Regs) (u16_port u16_pin : Nat) : Outcome Regs :=
  if u16_port ≠ PORT_B_INDEX ∧ u16_port ≠ PORT_C_INDEX then
    Outcome.done PmReturn.PM_RET_OK s
  else
    let u16_rp := rpNumber u16_port u16_pin
    if !chip.isRemappable u16_rp then Outcome.done PmReturn.PM_RET_OK s
    else
      let s1 := rpInputs.foldl (UNMAP_PERIPHERAL_INPUT chip u16_rp) s
      Outcome.done PmReturn.PM_RET_OK (unmapOutput chip u16_rp s1)

/-- Source macro `UNMAP_PIN`: `unmapPin` on a chip with remappable pins,
`PM_RET_OK` otherwise. -/
def UNMAP_PIN (chip : Chip) (s : Regs) (u16_port u16_pin : Nat) : Outcome Regs :=
  if chip.HAS_REMAPPABLE_PINS then unmapPin chip s u16_port u16_pin
  else Outcome.done PmReturn.PM_RET_OK s

/-! ## Composite entry point -/

/-- Modelled from the spec: the macro `PM_CHECK_FUNCTION` is declared in a header
that is not part of the source file. The sequence of calls is aborted at the
first failure and that failure is propagated unchanged: a return value other
than `PM_RET_OK` is returned at once, with the registers as the call left
them; `rest` is the remainder of the calling function. -/
def PM_CHECK_FUNCTION (call : Outcome Regs) (rest : Regs → Outcome Regs) : Outcome Regs :=
  match call with
  | Outcome.fault => Outcome.fault
  | Outcome.done PmReturn.PM_RET_OK s => rest s
  | Outcome.done (PmReturn.PM_RET_EX_VAL e) s => Outcome.done (PmReturn.PM_RET_EX_VAL e) s

/-- Source `configDigitalPinC`, on the five arguments once they are taken from
the frame. -/
def configDigitalPinC (chip : Chip) (s : Regs) (u16_port u16_pin : Nat)
    (b_isInput b_isOpenDrain : Bool) (i16_pullDir : Int) : Outcome Regs :=
  PM_CHECK_FUNCTION (setPinIsDigital chip s u16_port u16_pin true) fun s1 =>
  PM_CHECK_FUNCTION (setPinIsInput chip s1 u16_port u16_pin b_isInput) fun s2 =>
  PM_CHECK_FUNCTION (setPinIsOpenDrain chip s2 u16_port u16_pin b_isOpenDrain) fun s3 =>
  PM_CHECK_FUNCTION (setPinPullDirection chip s3 u16_port u16_pin i16_pullDir) fun s4 =>
  PM_CHECK_FUNCTION (UNMAP_PIN chip s4 u16_port u16_pin) fun s5 =>
  Outcome.done PmReturn.PM_RET_OK s5

/-! ## Reading bits -/

/-- What `readBitsC` hands back: the integer object pushed on the stack, or
the exception raised. -/
inductive ReadResult where
  | value (u16_value : Nat) : ReadResult
  | raised (e : Raised) : ReadResult
deriving DecidableEq, Repr

/-- Source `readBitsC`, on the three `uint16_t` arguments once they are taken
from the frame; `mem a` is the 16-bit word stored at address `a`. The sum in
the fourth check is an unsigned 16-bit sum; `1 << u16_numBits` and the mask are
16-bit values, and a shift by 16 or more leaves no bit. -/
def readBitsC (mem : Nat → Nat) (u16_evenAddress u16_startBit u16_numBits : Nat) :
    ReadResult :=
  if u16_evenAddress &&& 1 ≠ 0 then ReadResult.raised ⟨"The address must be even.", []⟩
  else if ¬ u16_startBit ≤ 15 then ReadResult.raised ⟨"The start bit must be <= 15.", []⟩
  else if ¬ u16_numBits > 0 then ReadResult.raised ⟨"The number of bits must be > 0.", []⟩
  else if ¬ (u16_startBit + u16_numBits) % 65536 ≤ 16 then
    ReadResult.raised ⟨"start bit + num bits <= 16.", []⟩
  else
    let u16_bitmask := ((1 <<< u16_numBits) % 65536 + 65535) % 65536
    let u16_value := ((mem u16_evenAddress % 65536) >>> u16_numBits) &&& u16_bitmask
    ReadResult.value u16_value

/-! ## Effects of the register writes

The words and families the calls above store, as total functions; the lemmas
below show that the calls compute exactly these. -/

/-- The word `setBit` stores for a bit index below 16. -/
def storedWord (word u16_bit : Nat) (b_val : Bool) : Nat :=
  if b_val then (word ||| (1 <<< u16_bit)) % 65536
  else (word &&& (0xFFFF ^^^ (1 <<< u16_bit))) % 65536

/-- The family after `setBit(base + offset, u16_bit, b_val)`. -/
def assignBit (family : Nat → Nat) (offset u16_bit : Nat) (b_val : Bool) : Nat → Nat :=
  Function.update family offset (storedWord (family offset) u16_bit b_val)

/-- The family after `SET_EXTENDED_BIT(base, bit, b_val)`. -/
def assignExtendedBit (family : Nat → Nat) (bit : Nat) (b_val : Bool) : Nat → Nat :=
  assignBit family (bit >>> 4) (bit &&& 0xF) b_val

/-- The input selectors after the sweep of `UNMAP_PERIPHERAL_INPUT` calls. -/
def unmapInputs (chip : Chip) (u16_rp : Nat) (rpinr : RpInput → Nat) : RpInput → Nat :=
  fun r => if chip.defRPINR r = true ∧ rpinr r = u16_rp then chip.IN_PIN_PPS_VSS else rpinr r

/-- The output selectors after the `switch` of `unmapPin`. -/
def unmapOutputs (chip : Chip) (u16_rp : Nat) (rpor : Nat → Nat) : Nat → Nat :=
  if u16_rp ≤ 30 ∧ chip.defRPOR u16_rp = true then
    Function.update rpor u16_rp chip.OUT_FN_PPS_NULL
  else rpor

/-- A second call `f` made on the state the first call returned with (whatever
its return value); a fault ends the run. -/
def thenAgain (first : Outcome Regs) (f : Regs → Outcome Regs) : Outcome Regs :=
  match first with
  | Outcome.fault => Outcome.fault
  | Outcome.done _ s => f s

/-- The return value of `setPinIsDigital` on an existing pin whose map entry
holds `cn` in `u8_cnPin`. -/
def digitalRet (chip : Chip) (cn u16_port u16_pin : Nat) (b_isDigital : Bool) : PmReturn :=
  if cn ≠ chip.UNDEF_AN_PIN ∨ b_isDigital = true then PmReturn.PM_RET_OK
  else PmReturn.PM_RET_EX_VAL (noAnalog u16_port u16_pin)

/-- The registers after `setPinIsDigital` on an existing pin whose map entry
holds `cn` in `u8_cnPin`. -/
def digitalEffect (chip : Chip) (cn : Nat) (b_isDigital : Bool) (s : Regs) : Regs :=
  { s with
    AD1PCFG :=
      if cn ≠ chip.UNDEF_AN_PIN then assignExtendedBit s.AD1PCFG cn b_isDigital else s.AD1PCFG
    AD2PCFG :=
      if cn ≠ chip.UNDEF_AN_PIN ∧ chip.def_AD2IF = true then
        assignExtendedBit s.AD2PCFG cn b_isDigital
      else s.AD2PCFG }

/-- The registers after `setPinIsInput` on an existing pin. -/
def inputEffect (u16_port u16_pin : Nat) (b_isInput : Bool) (s : Regs) : Regs :=
  { s with TRIS := assignBit s.TRIS (portOffset s u16_port) u16_pin b_isInput }

/-- The return value of `setPinIsOpenDrain` on an existing pin; `od` is the
answer of `digitalOpenDrainPinExists`. -/
def openDrainRet (od : Bool) (u16_port u16_pin : Nat) (b_isOpenDrain : Bool) : PmReturn :=
  if od = true ∨ b_isOpenDrain = false then PmReturn.PM_RET_OK
  else PmReturn.PM_RET_EX_VAL (noOpenDrain u16_port u16_pin)

/-- The registers after `setPinIsOpenDrain` on an existing pin. -/
def openDrainEffect (od : Bool) (u16_port u16_pin : Nat) (b_isOpenDrain : Bool) (s : Regs) :
    Regs :=
  { s with
    ODC :=
      if od = true then assignBit s.ODC (portOffset s u16_port) u16_pin b_isOpenDrain
      else s.ODC }

/-- The return value of `setPinPullDirection` on an existing pin whose map
entry holds `cn` in `u8_cnPin`. -/
def pullRet (chip : Chip) (cn u16_port u16_pin : Nat) (i16_dir : Int) : PmReturn :=
  if i16_dir = 0 then PmReturn.PM_RET_OK
  else if i16_dir > 0 then
    if cn ≠ chip.UNDEF_CN_PIN then PmReturn.PM_RET_OK
    else PmReturn.PM_RET_EX_VAL (noPullUp u16_port u16_pin)
  else if chip.HAS_PULL_DOWNS = true then
    if cn ≠ chip.UNDEF_CN_PIN then PmReturn.PM_RET_OK
    else PmReturn.PM_RET_EX_VAL (noPullUp u16_port u16_pin)
  else PmReturn.PM_RET_EX_VAL noPullDown

/-- The registers after `setPinPullDirection` on an existing pin whose map
entry holds `cn` in `u8_cnPin`. -/
def pullEffect (chip : Chip) (cn : Nat) (i16_dir : Int) (s : Regs) : Regs :=
  { s with
    CNPU :=
      if cn ≠ chip.UNDEF_CN_PIN ∧ (0 ≤ i16_dir ∨ chip.HAS_PULL_DOWNS = true) then
        assignExtendedBit s.CNPU cn (decide (0 < i16_dir))
      else s.CNPU
    CNPD :=
      if chip.HAS_PULL_DOWNS = true ∧ (i16_dir < 0 ∨ cn ≠ chip.UNDEF_CN_PIN) then
        assignExtendedBit s.CNPD cn (decide (i16_dir < 0))
      else s.CNPD }

/-- Whether `UNMAP_PIN` gets as far as the selector registers. -/
def unmapApplies (chip : Chip) (u16_port u16_pin : Nat) : Prop :=
  chip.HAS_REMAPPABLE_PINS = true ∧ (u16_port = PORT_B_INDEX ∨ u16_port = PORT_C_INDEX) ∧
    chip.isRemappable (rpNumber u16_port u16_pin) = true

instance (chip : Chip) (u16_port u16_pin : Nat) : Decidable (unmapApplies chip u16_port u16_pin) := by
  unfold unmapApplies; infer_instance

/-- The registers after `UNMAP_PIN`. -/
def unmapEffect (chip : Chip) (u16_port u16_pin : Nat) (s : Regs) : Regs :=
  { s with
    RPINR :=
      if unmapApplies chip u16_port u16_pin then
        unmapInputs chip (rpNumber u16_port u16_pin) s.RPINR
      else s.RPINR
    RPOR :=
      if unmapApplies chip u16_port u16_pin then
        unmapOutputs chip (rpNumber u16_port u16_pin) s.RPOR
      else s.RPOR }

/-- The registers `configDigitalPinC` returns with on an existing pin: the
effects of the steps up to and including the first one that does not return
`PM_RET_OK`. -/
def configEffect (chip : Chip) (cn : Nat) (od : Bool) (port pin : Nat)
    (isInput isOpenDrain : Bool) (dir : Int) (s : Regs) : Regs :=
  let s3 := openDrainEffect od port pin isOpenDrain
    (inputEffect port pin isInput (digitalEffect chip cn true s))
  match openDrainRet od port pin isOpenDrain with
  | PmReturn.PM_RET_EX_VAL _ => s3
  | PmReturn.PM_RET_OK =>
    match pullRet chip cn port pin dir with
    | PmReturn.PM_RET_EX_VAL _ => pullEffect chip cn dir s3
    | PmReturn.PM_RET_OK => unmapEffect chip port pin (pullEffect chip cn dir s3)

/-- The value `configDigitalPinC` returns on an existing pin. -/
def configRet (chip : Chip) (cn : Nat) (od : Bool) (port pin : Nat)
    (isOpenDrain : Bool) (dir : Int) : PmReturn :=
  match openDrainRet od port pin isOpenDrain with
  | PmReturn.PM_RET_EX_VAL e => PmReturn.PM_RET_EX_VAL e
  | PmReturn.PM_RET_OK => pullRet chip cn port pin dir

/-! ## A concrete part

A two-port part in the style of the 28-pin devices: port A has pins 0 to 4,
port B has all sixteen; pins B5 to B11 can be open-drain; there are no
pull-downs and one converter; RB0 to RB15 are RP0 to RP15. -/

/-- The `anCnMap` of the concrete part, port A first. -/
def demoAnCnMap : List AnCnMap :=
  [⟨0, 2⟩, ⟨1, 3⟩, ⟨255, 30⟩, ⟨255, 29⟩, ⟨255, 0⟩, ⟨255, 255⟩, ⟨255, 255⟩, ⟨255, 255⟩,
   ⟨255, 255⟩, ⟨255, 255⟩, ⟨255, 255⟩, ⟨255, 255⟩, ⟨255, 255⟩, ⟨255, 255⟩, ⟨255, 255⟩,
   ⟨255, 255⟩,
   ⟨2, 4⟩, ⟨3, 5⟩, ⟨4, 6⟩, ⟨5, 7⟩, ⟨255, 1⟩, ⟨255, 27⟩, ⟨255, 255⟩, ⟨255, 23⟩,
   ⟨255, 22⟩, ⟨255, 21⟩, ⟨255, 16⟩, ⟨255, 15⟩, ⟨12, 14⟩, ⟨11, 13⟩, ⟨10, 12⟩, ⟨9, 11⟩]

/-- The concrete part. -/
def demoChip : Chip where
  NUM_DIGITAL_PORTS := 2
  u16_digitalPinPresent := [0x001F, 0xFFFF]
  u16_digitalPinOpenDrainPresent := [0x0000, 0x0FE0]
  anCnMap := demoAnCnMap
  UNDEF_AN_PIN := 255
  UNDEF_CN_PIN := 255
  def_AD2IF := false
  HAS_PULL_DOWNS := false
  HAS_REMAPPABLE_PINS := true
  isRemappable := fun rp => decide (rp < 16)
  IN_PIN_PPS_VSS := 31
  OUT_FN_PPS_NULL := 0
  defRPINR := fun _ => true
  defRPOR := fun n => decide (n < 16)

/-- The state before `initIoConst` has run: the stride is still zero, every
register reads zero. -/
def coldRegs : Regs where
  u16_ioPortControlOffset := 0
  TRIS := fun _ => 0
  ODC := fun _ => 0
  AD1PCFG := fun _ => 0
  AD2PCFG := fun _ => 0
  CNPU := fun _ => 0
  CNPD := fun _ => 0
  RPINR := fun _ => 0
  RPOR := fun _ => 0

/-- The state after `initIoConst` on a part whose port registers are four
words apart. -/
def demoRegs : Regs := { coldRegs with u16_ioPortControlOffset := 4 }

/-- The concrete part with pull-down hardware added (`HAS_PULL_DOWNS`
defined). -/
def pullDownChip : Chip := { demoChip with HAS_PULL_DOWNS := true }

/-- The concrete part with an open-drain table that also marks pin A5, a pin
the presence table does not have. -/
def looseOpenDrainChip : Chip :=
  { demoChip with u16_digitalPinOpenDrainPresent := [0x0020, 0x0FE0] }

/-- The concrete part with all thirty-two slots RP0 to RP31 marked remappable
and an output selector defined for every slot. -/
def wideRemapChip : Chip :=
  { demoChip with isRemappable := fun rp => decide (rp < 32), defRPOR := fun _ => true }

/-- A state in which every input selector reads 31 and every output selector
reads 7. -/
def mappedRegs : Regs := { demoRegs with RPINR := fun _ => 31, RPOR := fun _ => 7 }

/-! ## Frame conditions -/

/-- Family `g` is family `f` except possibly for bit `bit` of the word at
`offset`: every other word is the same, and every other bit of that word reads
the same through `getBit`. -/
def sameExceptBit (f g : Nat → Nat) (offset bit : Nat) : Prop :=
  (∀ o, o ≠ offset → g o = f o) ∧
    ∀ j, j < 16 → j ≠ bit → getBit (g offset) j = getBit (f offset) j

/-! ## Lemmas on the bit accessor and the register writes -/

/-- For a bit index below 16 `getBit` is the bit test. -/
theorem getBit_eq_testBit (w i : Nat) (h : i < 16) : getBit w i = some (w.testBit i) := by
  unfold getBit
  rw [if_pos h, Nat.one_shiftLeft, Nat.and_two_pow]
  cases hb : w.testBit i <;> simp [Nat.pos_iff_ne_zero.mp (Nat.two_pow_pos i)]

/-- For a bit index below 16 `setBit` stores `storedWord`. -/
theorem setBit_eq (w i : Nat) (v : Bool) (h : i < 16) : setBit w i v = some (storedWord w i v) := by
  simp [setBit, storedWord, h]

/-- The bits of the stored word: bit `i` is the value written, the other bits below 16
are those of the old word, nothing is set at or above bit 16. -/
theorem testBit_storedWord (w i j : Nat) (v : Bool) :
    (storedWord w i v).testBit j = (decide (j < 16) && (if i = j then v else w.testBit j)) := by
  have h16 : (65536 : Nat) = 2 ^ 16 := by norm_num
  have hff : (0xFFFF : Nat) = 2 ^ 16 - 1 := by norm_num
  unfold storedWord
  cases v
  · simp only [Bool.false_eq_true, if_false, h16, hff, Nat.one_shiftLeft, Nat.testBit_mod_two_pow,
      Nat.testBit_and, Nat.testBit_xor, Nat.testBit_two_pow_sub_one, Nat.testBit_two_pow]
    by_cases hij : i = j <;> by_cases hj : j < 16 <;> simp [hij, hj]
  · simp only [if_true, h16, Nat.one_shiftLeft, Nat.testBit_mod_two_pow,
      Nat.testBit_or, Nat.testBit_two_pow]
    by_cases hij : i = j <;> by_cases hj : j < 16 <;> simp [hij, hj]

/-- Storing the same bit value twice is storing it once. -/
theorem storedWord_idem (w i : Nat) (v : Bool) :
    storedWord (storedWord w i v) i v = storedWord w i v := by
  apply Nat.eq_of_testBit_eq
  intro j
  simp only [testBit_storedWord]
  by_cases hij : i = j <;> by_cases hj : j < 16 <;> simp [hij, hj]

/-- Reading the bit just written gives the value written. -/
theorem getBit_storedWord_same (w i : Nat) (v : Bool) (h : i < 16) :
    getBit (storedWord w i v) i = some v := by
  rw [getBit_eq_testBit _ _ h, testBit_storedWord]
  simp [h]

/-- Writing bit `i` leaves every other bit below 16 as `getBit` read it before. -/
theorem getBit_storedWord_other (w i j : Nat) (v : Bool) (hj : j < 16) (hij : i ≠ j) :
    getBit (storedWord w i v) j = getBit w j := by
  rw [getBit_eq_testBit _ _ hj, getBit_eq_testBit _ _ hj, testBit_storedWord]
  simp [hj, hij]

/-- For a bit index below 16 `setBitAt` produces `assignBit`. -/
theorem setBitAt_eq (f : Nat → Nat) (a i : Nat) (v : Bool) (h : i < 16) :
    setBitAt f a i v = some (assignBit f a i v) := by
  simp [setBitAt, assignBit, setBit_eq _ _ _ h]

/-- The bit index `bit & 0xF` is below 16. -/
theorem and_0xF_lt (bit : Nat) : bit &&& 0xF < 16 :=
  Nat.lt_of_le_of_lt Nat.and_le_right (by norm_num)

/-- The macro `SET_EXTENDED_BIT` never trips the assertion of `setBit`. -/
@[simp]
theorem SET_EXTENDED_BIT_eq (f : Nat → Nat) (bit : Nat) (v : Bool) :
    SET_EXTENDED_BIT f bit v = some (assignExtendedBit f bit v) := by
  simp [SET_EXTENDED_BIT, assignExtendedBit, setBitAt_eq _ _ _ _ (and_0xF_lt bit)]

/-- Assigning the same bit of the same word twice is assigning it once. -/
@[simp]
theorem assignBit_idem (f : Nat → Nat) (a i : Nat) (v : Bool) :
    assignBit (assignBit f a i v) a i v = assignBit f a i v := by
  simp [assignBit, storedWord_idem]

/-- Assigning the same extended bit twice is assigning it once. -/
@[simp]
theorem assignExtendedBit_idem (f : Nat → Nat) (bit : Nat) (v : Bool) :
    assignExtendedBit (assignExtendedBit f bit v) bit v = assignExtendedBit f bit v := by
  simp [assignExtendedBit]

/-- Sweeping the input selectors twice for the same slot is sweeping them once. -/
@[simp]
theorem unmapInputs_idem (chip : Chip) (rp : Nat) (f : RpInput → Nat) :
    unmapInputs chip rp (unmapInputs chip rp f) = unmapInputs chip rp f := by
  funext r
  simp only [unmapInputs]
  by_cases h : chip.defRPINR r = true ∧ f r = rp
  · simp only [h, and_self, if_true, true_and, ite_self]
  · simp only [h, if_false]

/-- Resetting the output selector of a slot twice is resetting it once. -/
@[simp]
theorem unmapOutputs_idem (chip : Chip) (rp : Nat) (f : Nat → Nat) :
    unmapOutputs chip rp (unmapOutputs chip rp f) = unmapOutputs chip rp f := by
  unfold unmapOutputs
  split_ifs <;> simp

/-- An existing pin has a pin number below 16. -/
theorem pin_le_of_exists {chip : Chip} {port pin : Nat}
    (h : digitalPinExists chip port pin = some true) : pin < 16 := by
  unfold digitalPinExists digitalPinInBounds at h
  by_contra hp
  have : pin > 15 := by omega
  simp [this] at h

/-- The sweep over any list of selectors, field by field. -/
theorem sweep_list (chip : Chip) (rp : Nat) (l : List RpInput) (s : Regs) :
    l.foldl (UNMAP_PERIPHERAL_INPUT chip rp) s =
      { s with RPINR := fun r =>
          if r ∈ l ∧ chip.defRPINR r = true ∧ s.RPINR r = rp then chip.IN_PIN_PPS_VSS
          else s.RPINR r } := by
  induction l generalizing s with
  | nil => simp
  | cons a l ih =>
    rw [List.foldl_cons, ih]
    apply Regs.ext <;> try (simp only [UNMAP_PERIPHERAL_INPUT]; split_ifs <;> rfl)
    funext r
    simp only [UNMAP_PERIPHERAL_INPUT, List.mem_cons]
    by_cases hd : chip.defRPINR a = true <;> by_cases ha : s.RPINR a = rp <;>
      by_cases hr : r = a
    all_goals simp [hd, ha, hr, Function.update]

/-- The sweep over the eleven selectors of the source is `unmapInputs`. -/
theorem sweep_eq (chip : Chip) (rp : Nat) (s : Regs) :
    rpInputs.foldl (UNMAP_PERIPHERAL_INPUT chip rp) s =
      { s with RPINR := unmapInputs chip rp s.RPINR } := by
  rw [sweep_list]
  apply Regs.ext <;> try rfl
  funext r
  have hmem : r ∈ rpInputs := by cases r <;> simp [rpInputs]
  simp [unmapInputs, hmem]

/-! ## The setters in closed form -/

/-- On an existing pin with a map entry, `setPinIsDigital` returns `digitalRet` with
`digitalEffect`. -/
theorem setPinIsDigital_eq {chip : Chip} {port pin : Nat} {entry : AnCnMap}
    (hex : digitalPinExists chip port pin = some true)
    (hmap : chip.anCnMap[anCnIndex port pin]? = some entry) (s : Regs) (b : Bool) :
    setPinIsDigital chip s port pin b =
      Outcome.done (digitalRet chip entry.u8_cnPin port pin b)
        (digitalEffect chip entry.u8_cnPin b s) := by
  unfold setPinIsDigital digitalRet digitalEffect
  simp only [hex, hmap, SET_EXTENDED_BIT_eq, Option.map_some', afterWrite]
  by_cases hcn : entry.u8_cnPin = chip.UNDEF_AN_PIN
  · cases b <;> simp [hcn]
  · cases hA : chip.def_AD2IF <;> simp [hcn]

/-- On an existing pin with the stride initialised, `setPinIsInput` returns
`PM_RET_OK` with `inputEffect`. -/
theorem setPinIsInput_eq {chip : Chip} {port pin : Nat}
    (hex : digitalPinExists chip port pin = some true) (s : Regs)
    (hstride : s.u16_ioPortControlOffset ≠ 0) (b : Bool) :
    setPinIsInput chip s port pin b =
      Outcome.done PmReturn.PM_RET_OK (inputEffect port pin b s) := by
  unfold setPinIsInput inputEffect
  simp [hex, hstride, setBitAt_eq _ _ _ _ (pin_le_of_exists hex), afterWrite]

/-- On an existing pin with the stride initialised, `setPinIsOpenDrain` returns
`openDrainRet` with `openDrainEffect`. -/
theorem setPinIsOpenDrain_eq {chip : Chip} {port pin : Nat} {od : Bool}
    (hex : digitalPinExists chip port pin = some true)
    (hod : digitalOpenDrainPinExists chip port pin = some od) (s : Regs)
    (hstride : s.u16_ioPortControlOffset ≠ 0) (b : Bool) :
    setPinIsOpenDrain chip s port pin b =
      Outcome.done (openDrainRet od port pin b) (openDrainEffect od port pin b s) := by
  unfold setPinIsOpenDrain openDrainRet openDrainEffect
  cases od <;> cases b <;>
    simp [hex, hod, hstride, setBitAt_eq _ _ _ _ (pin_le_of_exists hex), afterWrite]

/-- On an existing pin with a map entry and the stride initialised,
`setPinPullDirection` returns `pullRet` with `pullEffect`. -/
theorem setPinPullDirection_eq {chip : Chip} {port pin : Nat} {entry : AnCnMap}
    (hex : digitalPinExists chip port pin = some true)
    (hmap : chip.anCnMap[anCnIndex port pin]? = some entry) (s : Regs)
    (hstride : s.u16_ioPortControlOffset ≠ 0) (dir : Int) :
    setPinPullDirection chip s port pin dir =
      Outcome.done (pullRet chip entry.u8_cnPin port pin dir)
        (pullEffect chip entry.u8_cnPin dir s) := by
  unfold setPinPullDirection pullRet pullEffect
  simp only [hex, hmap, hstride, if_false, writeCNPU, writeCNPD, SET_EXTENDED_BIT_eq,
    Option.map_some', afterWrite]
  rcases lt_trichotomy dir 0 with hd | hd | hd
  · have h1 : ¬ dir = 0 := by omega
    have h2 : ¬ dir > 0 := by omega
    have h3 : ¬ 0 ≤ dir := by omega
    by_cases hcn : entry.u8_cnPin = chip.UNDEF_CN_PIN <;>
      cases hP : chip.HAS_PULL_DOWNS <;> simp [h1, h2, h3, hd, hcn]
  · subst hd
    by_cases hcn : entry.u8_cnPin = chip.UNDEF_CN_PIN <;>
      cases hP : chip.HAS_PULL_DOWNS <;> simp [hcn]
  · have h1 : ¬ dir = 0 := by omega
    have h2 : ¬ dir < 0 := by omega
    have h3 : 0 ≤ dir := by omega
    by_cases hcn : entry.u8_cnPin = chip.UNDEF_CN_PIN <;>
      cases hP : chip.HAS_PULL_DOWNS <;> simp [h1, h2, h3, hd, hcn]

/-- The macro `UNMAP_PIN` always returns `PM_RET_OK`, with `unmapEffect`. -/
theorem UNMAP_PIN_eq (chip : Chip) (s : Regs) (port pin : Nat) :
    UNMAP_PIN chip s port pin =
      Outcome.done PmReturn.PM_RET_OK (unmapEffect chip port pin s) := by
  unfold UNMAP_PIN unmapPin unmapEffect
  simp only [sweep_eq]
  by_cases ha : unmapApplies chip port pin
  · obtain ⟨hR, hp, hM⟩ := ha
    have hp' : ¬ (port ≠ PORT_B_INDEX ∧ port ≠ PORT_C_INDEX) := by tauto
    have ha : unmapApplies chip port pin := ⟨hR, hp, hM⟩
    simp only [hR, hp', hM, ha, if_true, if_false, unmapOutput, unmapOutputs, Bool.not_true,
      Bool.false_eq_true]
    split_ifs <;> rfl
  · simp only [ha, if_false]
    by_cases hR : chip.HAS_REMAPPABLE_PINS = true
    · by_cases hp : port ≠ PORT_B_INDEX ∧ port ≠ PORT_C_INDEX
      · simp [hR, hp]
      · have hM : chip.isRemappable (rpNumber port pin) = false := by
          cases hM : chip.isRemappable (rpNumber port pin)
          · rfl
          · exact absurd ⟨hR, by tauto, hM⟩ ha
        simp [hR, hp, hM]
    · simp [hR]

/-- The stride is not a register `setPinIsDigital` writes. -/
@[simp]
theorem digitalEffect_stride (chip : Chip) (cn : Nat) (b : Bool) (s : Regs) :
    (digitalEffect chip cn b s).u16_ioPortControlOffset = s.u16_ioPortControlOffset := rfl

/-- The stride is not a register `setPinIsInput` writes. -/
@[simp]
theorem inputEffect_stride (port pin : Nat) (b : Bool) (s : Regs) :
    (inputEffect port pin b s).u16_ioPortControlOffset = s.u16_ioPortControlOffset := rfl

/-- The stride is not a register `setPinIsOpenDrain` writes. -/
@[simp]
theorem openDrainEffect_stride (od : Bool) (port pin : Nat) (b : Bool) (s : Regs) :
    (openDrainEffect od port pin b s).u16_ioPortControlOffset = s.u16_ioPortControlOffset := rfl

/-- The stride is not a register `setPinPullDirection` writes. -/
@[simp]
theorem pullEffect_stride (chip : Chip) (cn : Nat) (dir : Int) (s : Regs) :
    (pullEffect chip cn dir s).u16_ioPortControlOffset = s.u16_ioPortControlOffset := rfl

/-- The stride is not a register `UNMAP_PIN` writes. -/
@[simp]
theorem unmapEffect_stride (chip : Chip) (port pin : Nat) (s : Regs) :
    (unmapEffect chip port pin s).u16_ioPortControlOffset = s.u16_ioPortControlOffset := rfl

/-- Forcing digital mode never raises on an existing pin. -/
theorem digitalRet_true (chip : Chip) (cn port pin : Nat) :
    digitalRet chip cn port pin true = PmReturn.PM_RET_OK := by
  simp [digitalRet]

/-- On an existing pin with both table look-ups in range and the stride initialised,
`configDigitalPinC` returns `configRet` with `configEffect`. -/
theorem configDigitalPinC_eq {chip : Chip} {port pin : Nat} {entry : AnCnMap} {od : Bool}
    (hex : digitalPinExists chip port pin = some true)
    (hmap : chip.anCnMap[anCnIndex port pin]? = some entry)
    (hod : digitalOpenDrainPinExists chip port pin = some od) (s : Regs)
    (hstride : s.u16_ioPortControlOffset ≠ 0) (isInput isOpenDrain : Bool) (dir : Int) :
    configDigitalPinC chip s port pin isInput isOpenDrain dir =
      Outcome.done (configRet chip entry.u8_cnPin od port pin isOpenDrain dir)
        (configEffect chip entry.u8_cnPin od port pin isInput isOpenDrain dir s) := by
  unfold configDigitalPinC configRet configEffect
  rw [setPinIsDigital_eq hex hmap, digitalRet_true]
  simp only [PM_CHECK_FUNCTION]
  rw [setPinIsInput_eq hex _ (by simpa using hstride)]
  simp only [PM_CHECK_FUNCTION]
  rw [setPinIsOpenDrain_eq hex hod _ (by simpa using hstride)]
  cases h3 : openDrainRet od port pin isOpenDrain with
  | PM_RET_EX_VAL e => simp only [PM_CHECK_FUNCTION]
  | PM_RET_OK =>
    simp only [PM_CHECK_FUNCTION]
    rw [setPinPullDirection_eq hex hmap _ (by simpa using hstride)]
    cases h4 : pullRet chip entry.u8_cnPin port pin dir with
    | PM_RET_EX_VAL e => simp only [PM_CHECK_FUNCTION]
    | PM_RET_OK =>
      simp only [PM_CHECK_FUNCTION]
      rw [UNMAP_PIN_eq]

/-- No step of `configDigitalPinC` writes the stride. -/
theorem configEffect_stride (chip : Chip) (cn : Nat) (od : Bool) (port pin : Nat)
    (isInput isOpenDrain : Bool) (dir : Int) (s : Regs) :
    (configEffect chip cn od port pin isInput isOpenDrain dir s).u16_ioPortControlOffset =
      s.u16_ioPortControlOffset := by
  unfold configEffect
  cases openDrainRet od port pin isOpenDrain with
  | PM_RET_EX_VAL e => rfl
  | PM_RET_OK =>
    cases pullRet chip cn port pin dir with
    | PM_RET_EX_VAL e => rfl
    | PM_RET_OK => rfl

/-- The registers `configDigitalPinC` returns with are a fixed point of its effect. -/
theorem configEffect_idem (chip : Chip) (cn : Nat) (od : Bool) (port pin : Nat)
    (isInput isOpenDrain : Bool) (dir : Int) (s : Regs) :
    configEffect chip cn od port pin isInput isOpenDrain dir
        (configEffect chip cn od port pin isInput isOpenDrain dir s) =
      configEffect chip cn od port pin isInput isOpenDrain dir s := by
  unfold configEffect
  cases openDrainRet od port pin isOpenDrain with
  | PM_RET_EX_VAL e =>
    apply Regs.ext <;>
      simp only [openDrainEffect, inputEffect, digitalEffect, portOffset] <;>
      (try split_ifs) <;> first | rfl | simp
  | PM_RET_OK =>
    cases pullRet chip cn port pin dir with
    | PM_RET_EX_VAL e =>
      apply Regs.ext <;>
        simp only [openDrainEffect, inputEffect, digitalEffect, pullEffect, portOffset] <;>
        (try split_ifs) <;> first | rfl | simp
    | PM_RET_OK =>
      apply Regs.ext <;>
        simp only [openDrainEffect, inputEffect, digitalEffect, pullEffect, unmapEffect,
          portOffset] <;>
        (try split_ifs) <;> first | rfl | simp

/-! ## Table look-ups on an existing pin -/

/-- Reading back the bit `assignBit` wrote. -/
theorem getBit_assignBit (f : Nat → Nat) (a i : Nat) (v : Bool) (h : i < 16) :
    getBit (assignBit f a i v a) i = some v := by
  simp [assignBit, getBit_storedWord_same _ _ _ h]

/-- Reading back the bit `assignExtendedBit` wrote. -/
theorem extendedBit_assignExtendedBit (f : Nat → Nat) (bit : Nat) (v : Bool) :
    extendedBit (assignExtendedBit f bit v) bit = some v := by
  unfold extendedBit assignExtendedBit
  exact getBit_assignBit _ _ _ _ (and_0xF_lt bit)

/-- With a presence table of `NUM_DIGITAL_PORTS` words an existing pin has a port
below `NUM_DIGITAL_PORTS`. -/
theorem port_lt_of_exists {chip : Chip} {port pin : Nat}
    (hlen : chip.u16_digitalPinPresent.length = chip.NUM_DIGITAL_PORTS)
    (h : digitalPinExists chip port pin = some true) : port < chip.NUM_DIGITAL_PORTS := by
  unfold digitalPinExists at h
  rcases hw : chip.u16_digitalPinPresent[port]? with _ | w
  · rw [hw] at h
    split_ifs at h
    exact absurd (Option.some.inj h) (by decide)
  · rw [← hlen]
    exact (List.getElem?_eq_some.mp hw).1

/-- With tables of the declared sizes the `anCnMap` look-up of an existing pin is
inside the array. -/
theorem anCnMap_lookup {chip : Chip} {port pin : Nat} (hsz : chip.TablesSized)
    (h : digitalPinExists chip port pin = some true) :
    ∃ entry, chip.anCnMap[anCnIndex port pin]? = some entry := by
  have hp := port_lt_of_exists hsz.present h
  have hq := pin_le_of_exists h
  have hlt : anCnIndex port pin < chip.anCnMap.length := by
    rw [hsz.anCn]
    unfold anCnIndex
    exact Nat.lt_of_le_of_lt (Nat.mod_le _ _) (by omega)
  exact ⟨chip.anCnMap[anCnIndex port pin], List.getElem?_eq_getElem hlt⟩

/-- With tables of the declared sizes `digitalOpenDrainPinExists` answers for an
existing pin. -/
theorem openDrain_lookup {chip : Chip} {port pin : Nat} (hsz : chip.TablesSized)
    (h : digitalPinExists chip port pin = some true) :
    ∃ od, digitalOpenDrainPinExists chip port pin = some od := by
  have hp := port_lt_of_exists hsz.present h
  have hq := pin_le_of_exists h
  have hlt : port < chip.u16_digitalPinOpenDrainPresent.length := by rw [hsz.openDrain]; exact hp
  unfold digitalOpenDrainPinExists
  rw [List.getElem?_eq_getElem hlt]
  split_ifs
  · exact ⟨false, rfl⟩
  · exact ⟨_, getBit_eq_testBit _ _ hq⟩

/-- The tables of the concrete part have their declared sizes. -/
theorem demoChip_sized : demoChip.TablesSized := ⟨rfl, rfl, rfl⟩

/-! ## The validator and the argument checks in closed form -/

/-- Beyond the bounds check `digitalPinExists` answers `C_FALSE` without
touching the table. -/
theorem digitalPinExists_beyond (chip : Chip) (port pin : Nat)
    (h : chip.NUM_DIGITAL_PORTS < port ∨ 15 < pin) :
    digitalPinExists chip port pin = some false := by
  unfold digitalPinExists digitalPinInBounds
  rcases h with h | h
  · simp [h]
  · by_cases hp : port > chip.NUM_DIGITAL_PORTS <;> simp [hp, h]

/-- Inside the bounds check `digitalPinExists` answers with bit `pin` of the
table word of the port. -/
theorem digitalPinExists_in_table (chip : Chip) (port pin w : Nat)
    (hport : port ≤ chip.NUM_DIGITAL_PORTS) (hpin : pin ≤ 15)
    (hw : chip.u16_digitalPinPresent[port]? = some w) :
    digitalPinExists chip port pin = some (w.testBit pin) := by
  unfold digitalPinExists digitalPinInBounds
  have h1 : ¬ port > chip.NUM_DIGITAL_PORTS := by omega
  have h2 : ¬ pin > 15 := by omega
  simp [h1, h2, hw, getBit_eq_testBit _ _ (show pin < 16 by omega)]

/-- The port `NUM_DIGITAL_PORTS` passes the bounds check, and with a table of
`NUM_DIGITAL_PORTS` words the look-up leaves the table. -/
theorem digitalPinExists_at_port_count (chip : Chip) (pin : Nat)
    (hlen : chip.u16_digitalPinPresent.length = chip.NUM_DIGITAL_PORTS) (hpin : pin ≤ 15) :
    digitalPinExists chip chip.NUM_DIGITAL_PORTS pin = none := by
  unfold digitalPinExists digitalPinInBounds
  have h2 : ¬ pin > 15 := by omega
  have hnone : chip.u16_digitalPinPresent[chip.NUM_DIGITAL_PORTS]? = none := by
    rw [List.getElem?_eq_none]; omega
  simp [h2, hnone]

/-- The arguments `readBitsC` rejects: an odd address, a start bit above 15, no
bits, or a 16-bit sum of start bit and bit count above 16. -/
theorem readBitsC_raises_iff (mem : Nat → Nat) (addr startBit numBits : Nat) :
    (∃ e, readBitsC mem addr startBit numBits = ReadResult.raised e) ↔
      (addr % 2 = 1 ∨ 15 < startBit ∨ numBits = 0 ∨ 16 < (startBit + numBits) % 65536) := by
  unfold readBitsC
  simp only [Nat.and_one_is_mod]
  by_cases h1 : addr % 2 = 1
  · simp [h1]
  · have h1' : addr % 2 = 0 := by omega
    by_cases h2 : 15 < startBit
    · simp [h1', h2]
    · by_cases h3 : numBits = 0
      · simp [h1', h2, h3]
      · by_cases h4 : 16 < (startBit + numBits) % 65536
        · simp [h1', h2, h3, h4]
        · have h3' : 0 < numBits := by omega
          simp [h1', h2, h3, h3', h4]

/-! ## Further closed forms -/

/-- The mask `(1 << u16_numBits) - 1` in 16-bit arithmetic, for 1 to 16 bits. -/
theorem bitmask_eq (n : Nat) (h0 : 0 < n) (h16 : n ≤ 16) :
    ((1 <<< n) % 65536 + 65535) % 65536 = 2 ^ n - 1 := by
  interval_cases n <;> decide

/-- Assigning a bit changes no other word and no other bit of its word. -/
theorem sameExceptBit_assignBit (f : Nat → Nat) (a i : Nat) (v : Bool) :
    sameExceptBit f (assignBit f a i v) a i := by
  constructor
  · intro o ho
    simp [assignBit, Function.update, ho]
  · intro j hj hji
    simp [assignBit, getBit_storedWord_other _ _ _ _ hj (Ne.symm hji)]

/-- Source `unmapPin` in closed form: it always returns `PM_RET_OK`; the
selectors are swept exactly when the port is B or C and the slot is marked
remappable. -/
theorem unmapPin_eq (chip : Chip) (s : Regs) (port pin : Nat) :
    unmapPin chip s port pin =
      Outcome.done PmReturn.PM_RET_OK
        (if (port = PORT_B_INDEX ∨ port = PORT_C_INDEX) ∧
            chip.isRemappable (rpNumber port pin) = true then
          { s with
            RPINR := unmapInputs chip (rpNumber port pin) s.RPINR
            RPOR := unmapOutputs chip (rpNumber port pin) s.RPOR }
        else s) := by
  unfold unmapPin
  simp only [sweep_eq]
  by_cases hp : port = PORT_B_INDEX ∨ port = PORT_C_INDEX
  · have hp' : ¬ (port ≠ PORT_B_INDEX ∧ port ≠ PORT_C_INDEX) := by tauto
    cases hM : chip.isRemappable (rpNumber port pin)
    · simp [hp']
    · simp only [hp, hp', if_false, unmapOutput, unmapOutputs, Bool.not_true,
        Bool.false_eq_true, and_self, if_true]
      split_ifs <;> rfl
  · have hp' : port ≠ PORT_B_INDEX ∧ port ≠ PORT_C_INDEX := by tauto
    simp [hp, hp']

/-- When `configRet` is `PM_RET_OK`. -/
theorem configRet_ok_iff (chip : Chip) (cn : Nat) (od : Bool) (port pin : Nat)
    (isOpenDrain : Bool) (dir : Int) :
    configRet chip cn od port pin isOpenDrain dir = PmReturn.PM_RET_OK ↔
      ((isOpenDrain = true → od = true) ∧ (0 < dir → cn ≠ chip.UNDEF_CN_PIN) ∧
        (dir < 0 → chip.HAS_PULL_DOWNS = true ∧ cn ≠ chip.UNDEF_CN_PIN)) := by
  unfold configRet openDrainRet pullRet
  rcases lt_trichotomy dir 0 with hd | hd | hd
  · have h1 : ¬ dir = 0 := by omega
    have h2 : ¬ dir > 0 := by omega
    have h3 : ¬ 0 < dir := by omega
    cases od <;> cases isOpenDrain <;> cases hP : chip.HAS_PULL_DOWNS <;>
      by_cases hcn : cn = chip.UNDEF_CN_PIN <;> simp [h1, h2, h3, hd, hcn]
  · subst hd
    cases od <;> cases isOpenDrain <;> simp
  · have h1 : ¬ dir = 0 := by omega
    have h2 : ¬ dir < 0 := by omega
    cases od <;> cases isOpenDrain <;>
      by_cases hcn : cn = chip.UNDEF_CN_PIN <;> simp [h1, h2, hd, hcn]

/-- A step that returns something other than `PM_RET_OK` ends the sequence
with its own return value and state. -/
theorem PM_CHECK_FUNCTION_stop (r : PmReturn) (s : Regs) (rest : Regs → Outcome Regs)
    (hr : r ≠ PmReturn.PM_RET_OK) :
    PM_CHECK_FUNCTION (Outcome.done r s) rest = Outcome.done r s := by
  cases r with
  | PM_RET_OK => exact absurd rfl hr
  | PM_RET_EX_VAL e => rfl

/-- A step that returns `PM_RET_OK` hands its state to the rest of the
sequence. -/
theorem PM_CHECK_FUNCTION_go (s : Regs) (rest : Regs → Outcome Regs) :
    PM_CHECK_FUNCTION (Outcome.done PmReturn.PM_RET_OK s) rest = rest s := rfl

/-! ## The claims -/

/-- C1. For a pin that exists (which puts it inside the port and pin bounds) on a
chip whose tables have their declared sizes, with the stride initialised and
for every `isInput`: `configDigitalPinC(port, pin, isInput, false, 0)` returns
`PM_RET_OK`, and in the registers it returns with the direction bit of the pin
equals `isInput`, the open-drain bit is clear when the pin has the open-drain
capability, and, when the pin has a change-notification number, its pull-up
bit is clear and so is its pull-down bit on a part with pull-downs. -/
theorem configDigitalPinC_plain_output (chip : Chip) (s : Regs) (port pin : Nat) (isInput : Bool)
    (hsz : chip.TablesSized) (hex : digitalPinExists chip port pin = some true)
    (hstride : s.u16_ioPortControlOffset ≠ 0) :
    ∃ s', configDigitalPinC chip s port pin isInput false 0 =
          Outcome.done PmReturn.PM_RET_OK s' ∧
      getBit (s'.TRIS (portOffset s port)) pin = some isInput ∧
      (digitalOpenDrainPinExists chip port pin = some true →
        getBit (s'.ODC (portOffset s port)) pin = some false) ∧
      (∀ entry, chip.anCnMap[anCnIndex port pin]? = some entry →
        entry.u8_cnPin ≠ chip.UNDEF_CN_PIN →
          extendedBit s'.CNPU entry.u8_cnPin = some false ∧
          (chip.HAS_PULL_DOWNS = true → extendedBit s'.CNPD entry.u8_cnPin = some false)) := by
  obtain ⟨entry, hmap⟩ := anCnMap_lookup hsz hex
  obtain ⟨od, hod⟩ := openDrain_lookup hsz hex
  have hpin := pin_le_of_exists hex
  refine ⟨configEffect chip entry.u8_cnPin od port pin isInput false 0 s, ?_, ?_, ?_, ?_⟩
  · rw [configDigitalPinC_eq hex hmap hod s hstride]
    simp [configRet, openDrainRet, pullRet]
  · simp [configEffect, openDrainRet, pullRet, unmapEffect, pullEffect, openDrainEffect,
      inputEffect, digitalEffect, portOffset, getBit_assignBit _ _ _ _ hpin]
  · intro hod'
    have : od = true := by rw [hod] at hod'; exact Option.some.inj hod'
    subst this
    simp [configEffect, openDrainRet, pullRet, unmapEffect, pullEffect, openDrainEffect,
      inputEffect, digitalEffect, portOffset, getBit_assignBit _ _ _ _ hpin]
  · intro entry' hmap' hcn
    have : entry' = entry := by rw [hmap] at hmap'; exact (Option.some.inj hmap').symm
    subst this
    constructor
    · simp [configEffect, openDrainRet, pullRet, unmapEffect, pullEffect, hcn,
        extendedBit_assignExtendedBit]
    · intro hpd
      simp [configEffect, openDrainRet, pullRet, unmapEffect, pullEffect, hcn, hpd,
        extendedBit_assignExtendedBit]

/-- C1 at pin B3 of the concrete part, as an input. -/
theorem configDigitalPinC_plain_output_witness :
    ∃ s', configDigitalPinC demoChip demoRegs 1 3 true false 0 =
          Outcome.done PmReturn.PM_RET_OK s' ∧
      getBit (s'.TRIS (portOffset demoRegs 1)) 3 = some true ∧
      (digitalOpenDrainPinExists demoChip 1 3 = some true →
        getBit (s'.ODC (portOffset demoRegs 1)) 3 = some false) ∧
      (∀ entry, demoChip.anCnMap[anCnIndex 1 3]? = some entry →
        entry.u8_cnPin ≠ demoChip.UNDEF_CN_PIN →
          extendedBit s'.CNPU entry.u8_cnPin = some false ∧
          (demoChip.HAS_PULL_DOWNS = true → extendedBit s'.CNPD entry.u8_cnPin = some false)) :=
  configDigitalPinC_plain_output demoChip demoRegs 1 3 true demoChip_sized (by decide) (by decide)

/-- C3 fails at `port = NUM_DIGITAL_PORTS`: on the concrete part, whose presence
table has exactly `NUM_DIGITAL_PORTS` words, the bounds check lets port
`NUM_DIGITAL_PORTS` through and `digitalPinExists` reads the table outside its
entries instead of returning `C_FALSE`. -/
theorem digitalPinExists_port_count_fault :
    demoChip.u16_digitalPinPresent.length = demoChip.NUM_DIGITAL_PORTS ∧
      digitalPinInBounds demoChip demoChip.NUM_DIGITAL_PORTS 0 = true ∧
      digitalPinExists demoChip demoChip.NUM_DIGITAL_PORTS 0 = none := by
  decide

/-- C2 fails at `port = NUM_DIGITAL_PORTS` (one past the last port): on the
concrete part each of the four setters, called for port 2 and pin 0, ends in
the read outside the presence table and raises no "Invalid pin" error. -/
theorem setters_port_count_fault :
    demoChip.NUM_DIGITAL_PORTS = 2 ∧
      setPinIsInput demoChip demoRegs 2 0 true = Outcome.fault ∧
      setPinIsDigital demoChip demoRegs 2 0 true = Outcome.fault ∧
      setPinIsOpenDrain demoChip demoRegs 2 0 false = Outcome.fault ∧
      setPinPullDirection demoChip demoRegs 2 0 0 = Outcome.fault := by
  have h : digitalPinExists demoChip 2 0 = none := by decide
  refine ⟨rfl, ?_⟩
  simp [setPinIsInput, setPinIsDigital, setPinIsOpenDrain, setPinPullDirection, h]

/-- C4. For every pin `digitalPinExists` answers `C_FALSE` for, each of the four
setters (whatever its third argument) and `configDigitalPinC` (whatever its
other arguments) return the "Invalid pin" value error with the state they were
called on: no register is written. -/
theorem rejected_pin_leaves_registers (chip : Chip) (s : Regs) (port pin : Nat)
    (b1 b2 b3 isInput isOpenDrain : Bool) (dir pullDir : Int)
    (hrej : digitalPinExists chip port pin = some false) :
    setPinIsInput chip s port pin b1 =
        Outcome.done (PmReturn.PM_RET_EX_VAL (invalidPin port pin)) s ∧
      setPinIsDigital chip s port pin b2 =
        Outcome.done (PmReturn.PM_RET_EX_VAL (invalidPin port pin)) s ∧
      setPinIsOpenDrain chip s port pin b3 =
        Outcome.done (PmReturn.PM_RET_EX_VAL (invalidPin port pin)) s ∧
      setPinPullDirection chip s port pin dir =
        Outcome.done (PmReturn.PM_RET_EX_VAL (invalidPin port pin)) s ∧
      configDigitalPinC chip s port pin isInput isOpenDrain pullDir =
        Outcome.done (PmReturn.PM_RET_EX_VAL (invalidPin port pin)) s := by
  simp [setPinIsInput, setPinIsDigital, setPinIsOpenDrain, setPinPullDirection,
    configDigitalPinC, PM_CHECK_FUNCTION, hrej]

/-- C4 at pin A5, which the concrete part does not have. -/
theorem rejected_pin_leaves_registers_witness :
    digitalPinExists demoChip 0 5 = some false ∧
      setPinIsInput demoChip demoRegs 0 5 true =
        Outcome.done (PmReturn.PM_RET_EX_VAL (invalidPin 0 5)) demoRegs ∧
      setPinIsDigital demoChip demoRegs 0 5 false =
        Outcome.done (PmReturn.PM_RET_EX_VAL (invalidPin 0 5)) demoRegs ∧
      setPinIsOpenDrain demoChip demoRegs 0 5 true =
        Outcome.done (PmReturn.PM_RET_EX_VAL (invalidPin 0 5)) demoRegs ∧
      setPinPullDirection demoChip demoRegs 0 5 1 =
        Outcome.done (PmReturn.PM_RET_EX_VAL (invalidPin 0 5)) demoRegs ∧
      configDigitalPinC demoChip demoRegs 0 5 true false 0 =
        Outcome.done (PmReturn.PM_RET_EX_VAL (invalidPin 0 5)) demoRegs :=
  ⟨by decide,
    rejected_pin_leaves_registers demoChip demoRegs 0 5 true false true true false 1 0
      (by decide)⟩

/-- C5. `configDigitalPinC` is idempotent: for every chip, every initial state and every
argument tuple, a second call with the same arguments, made on the state the
first call returned with, returns the same value and the same registers as the
first call alone (and a call that faults faults both ways). -/
theorem configDigitalPinC_idempotent (chip : Chip) (s : Regs) (port pin : Nat)
    (isInput isOpenDrain : Bool) (dir : Int) :
    thenAgain (configDigitalPinC chip s port pin isInput isOpenDrain dir)
        (fun s1 => configDigitalPinC chip s1 port pin isInput isOpenDrain dir) =
      configDigitalPinC chip s port pin isInput isOpenDrain dir := by
  rcases hex : digitalPinExists chip port pin with _ | _ | _
  · simp [configDigitalPinC, setPinIsDigital, hex, PM_CHECK_FUNCTION, thenAgain]
  · simp [configDigitalPinC, setPinIsDigital, hex, PM_CHECK_FUNCTION, thenAgain]
  · rcases hmap : chip.anCnMap[anCnIndex port pin]? with _ | entry
    · simp [configDigitalPinC, setPinIsDigital, hex, hmap, PM_CHECK_FUNCTION, thenAgain]
    · by_cases hstride : s.u16_ioPortControlOffset = 0
      · have h : configDigitalPinC chip s port pin isInput isOpenDrain dir = Outcome.fault := by
          unfold configDigitalPinC
          rw [setPinIsDigital_eq hex hmap, digitalRet_true]
          simp [PM_CHECK_FUNCTION, setPinIsInput, hex, hstride]
        rw [h]; rfl
      · rcases hod : digitalOpenDrainPinExists chip port pin with _ | od
        · have h : configDigitalPinC chip s port pin isInput isOpenDrain dir = Outcome.fault := by
            unfold configDigitalPinC
            rw [setPinIsDigital_eq hex hmap, digitalRet_true]
            simp only [PM_CHECK_FUNCTION]
            rw [setPinIsInput_eq hex _ (by simpa using hstride)]
            simp [PM_CHECK_FUNCTION, setPinIsOpenDrain, hex, hod, hstride]
          rw [h]; rfl
        · rw [configDigitalPinC_eq hex hmap hod s hstride]
          simp only [thenAgain]
          rw [configDigitalPinC_eq hex hmap hod _ (by rw [configEffect_stride]; exact hstride),
            configEffect_idem]

/-- C6 fails on pin A2 of the concrete part, which has no analog channel but has
change-notification number 30: `setPinIsDigital` takes the number from the
`u8_cnPin` member, so the request for analog mode returns `PM_RET_OK` instead
of the value error, and the request for digital mode sets bit 14 of the second
analog-configuration word instead of leaving the registers alone. -/
theorem setPinIsDigital_reads_cn_member :
    digitalPinExists demoChip 0 2 = some true ∧
      demoChip.anCnMap[anCnIndex 0 2]? = some ⟨demoChip.UNDEF_AN_PIN, 30⟩ ∧
      setPinIsDigital demoChip demoRegs 0 2 false =
        Outcome.done PmReturn.PM_RET_OK (digitalEffect demoChip 30 false demoRegs) ∧
      setPinIsDigital demoChip demoRegs 0 2 true =
        Outcome.done PmReturn.PM_RET_OK (digitalEffect demoChip 30 true demoRegs) ∧
      (digitalEffect demoChip 30 true demoRegs).AD1PCFG 1 = 0x4000 ∧
      demoRegs.AD1PCFG 1 = 0 := by
  have hex : digitalPinExists demoChip 0 2 = some true := by decide
  have hmap : demoChip.anCnMap[anCnIndex 0 2]? = some ⟨demoChip.UNDEF_AN_PIN, 30⟩ := by decide
  refine ⟨hex, hmap, ?_, ?_, ?_, ?_⟩
  · rw [setPinIsDigital_eq hex hmap]; rfl
  · rw [setPinIsDigital_eq hex hmap]; rfl
  · decide
  · decide

/-- C7. For an existing pin without the open-drain capability, with the stride
initialised: `setPinIsOpenDrain(port, pin, true)` returns the value error
"The pin <letter><pin> has no open-drain ability." and
`setPinIsOpenDrain(port, pin, false)` returns `PM_RET_OK`, both with the state
they were called on. -/
theorem setPinIsOpenDrain_without_capability (chip : Chip) (s : Regs) (port pin : Nat)
    (hex : digitalPinExists chip port pin = some true)
    (hod : digitalOpenDrainPinExists chip port pin = some false)
    (hstride : s.u16_ioPortControlOffset ≠ 0) :
    setPinIsOpenDrain chip s port pin true =
        Outcome.done (PmReturn.PM_RET_EX_VAL (noOpenDrain port pin)) s ∧
      setPinIsOpenDrain chip s port pin false = Outcome.done PmReturn.PM_RET_OK s := by
  simp [setPinIsOpenDrain, hex, hod, hstride]

/-- C7 at pin A1 of the concrete part. -/
theorem setPinIsOpenDrain_without_capability_witness :
    setPinIsOpenDrain demoChip demoRegs 0 1 true =
        Outcome.done (PmReturn.PM_RET_EX_VAL (noOpenDrain 0 1)) demoRegs ∧
      setPinIsOpenDrain demoChip demoRegs 0 1 false = Outcome.done PmReturn.PM_RET_OK demoRegs :=
  setPinIsOpenDrain_without_capability demoChip demoRegs 0 1 (by decide) (by decide) (by decide)

/-- C8 as stated fails before `initIoConst` has run: on the concrete part (no
pull-downs) and the existing pin A0, `setPinPullDirection(0, 0, -1)` stops at
`ASSERT(u16_ioPortControlOffset)` and raises no value error. -/
theorem setPinPullDirection_down_cold_stride :
    demoChip.HAS_PULL_DOWNS = false ∧ digitalPinExists demoChip 0 0 = some true ∧
      setPinPullDirection demoChip coldRegs 0 0 (-1) = Outcome.fault := by
  have hex : digitalPinExists demoChip 0 0 = some true := by decide
  refine ⟨rfl, hex, ?_⟩
  simp [setPinPullDirection, hex, coldRegs]

/-- C8, amended. On a chip without pull-downs whose tables have their declared
sizes, for every existing pin (with or without a change-notification number),
with the stride initialised and for every `dir < 0`: `setPinPullDirection`
returns the value error "Pull-downs do not exist on this chip." with the state
it was called on. -/
theorem setPinPullDirection_down_without_pull_downs (chip : Chip) (s : Regs) (port pin : Nat)
    (dir : Int) (hsz : chip.TablesSized) (hpd : chip.HAS_PULL_DOWNS = false)
    (hex : digitalPinExists chip port pin = some true)
    (hstride : s.u16_ioPortControlOffset ≠ 0) (hdir : dir < 0) :
    setPinPullDirection chip s port pin dir =
      Outcome.done (PmReturn.PM_RET_EX_VAL noPullDown) s := by
  obtain ⟨entry, hmap⟩ := anCnMap_lookup hsz hex
  have h1 : ¬ dir = 0 := by omega
  have h2 : ¬ dir > 0 := by omega
  simp [setPinPullDirection, hex, hmap, hstride, h1, h2, hpd]

/-- C8, amended, at pin B6 of the concrete part, which has no
change-notification number. -/
theorem setPinPullDirection_down_without_pull_downs_witness :
    setPinPullDirection demoChip demoRegs 1 6 (-3) =
      Outcome.done (PmReturn.PM_RET_EX_VAL noPullDown) demoRegs :=
  setPinPullDirection_down_without_pull_downs demoChip demoRegs 1 6 (-3) demoChip_sized rfl
    (by decide) (by decide) (by decide)

/-- C9 fails at `startBit = 1`, `numBits = 65535`: the unsigned 16-bit sum wraps
to 0, the fourth check passes, and `readBitsC` returns an integer instead of
raising the value error. -/
theorem readBitsC_sum_wraps :
    (1 + 65535) % 65536 = 0 ∧ readBitsC (fun _ => 0xF0F0) 0 1 65535 = ReadResult.value 0 := by
  decide

/-- C10 fails at `startBit = 0`, `numBits = 4` on a word holding `0x00F5`:
`readBitsC` shifts by `numBits` and returns `0xF`, where the four bits starting
at bit 0 are `5`. -/
theorem readBitsC_shifts_by_numBits :
    readBitsC (fun _ => 0x00F5) 0 0 4 = ReadResult.value 0xF ∧ (0x00F5 / 2 ^ 0) % 2 ^ 4 = 5 := by
  decide

/-- C11. For every accepted input (even address, `startBit <= 15`, `numBits > 0`,
`startBit + numBits <= 16`) and every 16-bit word `w` at the address,
`readBitsC` returns `(w >> numBits) & (2 ^ numBits - 1)`: the shift amount is
`numBits`, `startBit` does not enter the value. -/
theorem readBitsC_value (mem : Nat → Nat) (addr startBit numBits : Nat)
    (haddr : addr % 2 = 0) (hstart : startBit ≤ 15) (hnum : 0 < numBits)
    (hsum : startBit + numBits ≤ 16) (hword : mem addr < 65536) :
    readBitsC mem addr startBit numBits =
      ReadResult.value ((mem addr >>> numBits) &&& (2 ^ numBits - 1)) := by
  have hn16 : numBits ≤ 16 := by omega
  have hmod : (startBit + numBits) % 65536 = startBit + numBits := Nat.mod_eq_of_lt (by omega)
  have hs : ¬ 16 < startBit + numBits := by omega
  have hst : ¬ 15 < startBit := by omega
  unfold readBitsC
  simp only [Nat.and_one_is_mod]
  simp [haddr, hst, hnum, hmod, hs, hsum, bitmask_eq numBits hnum hn16, Nat.mod_eq_of_lt hword]

/-- C11 at `readBitsC(0, 4, 4)` on a word holding `0x00F0`: the value is `0x0F`. -/
theorem readBitsC_value_witness :
    readBitsC (fun _ => 0x00F0) 0 4 4 = ReadResult.value ((0x00F0 >>> 4) &&& (2 ^ 4 - 1)) ∧
      (0x00F0 >>> 4) &&& (2 ^ 4 - 1) = 0x0F :=
  ⟨readBitsC_value (fun _ => 0x00F0) 0 4 4 (by decide) (by decide) (by decide) (by decide)
    (by decide), by decide⟩

/-- C12 as stated fails before `initIoConst` has run: for the existing pin A1,
which has no open-drain capability, `configDigitalPinC(0, 1, true, true, 0)`
stops at the `ASSERT(u16_ioPortControlOffset)` of step 2 and never returns the
open-drain error. -/
theorem configDigitalPinC_open_drain_cold_stride :
    digitalPinExists demoChip 0 1 = some true ∧
      digitalOpenDrainPinExists demoChip 0 1 = some false ∧
      configDigitalPinC demoChip coldRegs 0 1 true true 0 = Outcome.fault := by
  have hex : digitalPinExists demoChip 0 1 = some true := by decide
  have hmap : demoChip.anCnMap[anCnIndex 0 1]? = some ⟨1, 3⟩ := by decide
  refine ⟨hex, by decide, ?_⟩
  unfold configDigitalPinC
  rw [setPinIsDigital_eq hex hmap, digitalRet_true]
  simp [PM_CHECK_FUNCTION, setPinIsInput, hex, coldRegs]

/-- C12, amended. For every chip, state and argument tuple, `configDigitalPinC`
runs `setPinIsDigital(.., true)`, `setPinIsInput`, `setPinIsOpenDrain`,
`setPinPullDirection` and `UNMAP_PIN` in this order, each on the state the
step before it returned with. The first step that returns something other than
`PM_RET_OK` ends the call: the call returns that step's value unchanged, with
the state that step returned with (no rollback); when the first four return
`PM_RET_OK` the call returns what `UNMAP_PIN` returns. In particular, for an
existing pin with map entry `entry` and without open-drain capability, with
the stride initialised and `isOpenDrain = true`: the call returns the
open-drain value error of step 3, the state it returns with is the one steps 1
and 2 produced, so the direction bit of the pin reads `isInput`, and the
pull-up, pull-down and remap selector registers are as before the call. -/
theorem configDigitalPinC_ordered_steps (chip : Chip) (s : Regs) (port pin : Nat)
    (isInput isOpenDrain : Bool) (dir : Int) :
    (∀ r1 s1, setPinIsDigital chip s port pin true = Outcome.done r1 s1 →
        r1 ≠ PmReturn.PM_RET_OK →
        configDigitalPinC chip s port pin isInput isOpenDrain dir = Outcome.done r1 s1) ∧
      (∀ s1 r2 s2, setPinIsDigital chip s port pin true = Outcome.done PmReturn.PM_RET_OK s1 →
        setPinIsInput chip s1 port pin isInput = Outcome.done r2 s2 →
        r2 ≠ PmReturn.PM_RET_OK →
        configDigitalPinC chip s port pin isInput isOpenDrain dir = Outcome.done r2 s2) ∧
      (∀ s1 s2 r3 s3,
        setPinIsDigital chip s port pin true = Outcome.done PmReturn.PM_RET_OK s1 →
        setPinIsInput chip s1 port pin isInput = Outcome.done PmReturn.PM_RET_OK s2 →
        setPinIsOpenDrain chip s2 port pin isOpenDrain = Outcome.done r3 s3 →
        r3 ≠ PmReturn.PM_RET_OK →
        configDigitalPinC chip s port pin isInput isOpenDrain dir = Outcome.done r3 s3) ∧
      (∀ s1 s2 s3 r4 s4,
        setPinIsDigital chip s port pin true = Outcome.done PmReturn.PM_RET_OK s1 →
        setPinIsInput chip s1 port pin isInput = Outcome.done PmReturn.PM_RET_OK s2 →
        setPinIsOpenDrain chip s2 port pin isOpenDrain = Outcome.done PmReturn.PM_RET_OK s3 →
        setPinPullDirection chip s3 port pin dir = Outcome.done r4 s4 →
        r4 ≠ PmReturn.PM_RET_OK →
        configDigitalPinC chip s port pin isInput isOpenDrain dir = Outcome.done r4 s4) ∧
      (∀ s1 s2 s3 s4 r5 s5,
        setPinIsDigital chip s port pin true = Outcome.done PmReturn.PM_RET_OK s1 →
        setPinIsInput chip s1 port pin isInput = Outcome.done PmReturn.PM_RET_OK s2 →
        setPinIsOpenDrain chip s2 port pin isOpenDrain = Outcome.done PmReturn.PM_RET_OK s3 →
        setPinPullDirection chip s3 port pin dir = Outcome.done PmReturn.PM_RET_OK s4 →
        UNMAP_PIN chip s4 port pin = Outcome.done r5 s5 →
        configDigitalPinC chip s port pin isInput isOpenDrain dir = Outcome.done r5 s5) ∧
      (∀ entry, digitalPinExists chip port pin = some true →
        chip.anCnMap[anCnIndex port pin]? = some entry →
        digitalOpenDrainPinExists chip port pin = some false →
        s.u16_ioPortControlOffset ≠ 0 → isOpenDrain = true →
        ∃ s', configDigitalPinC chip s port pin isInput isOpenDrain dir =
              Outcome.done (PmReturn.PM_RET_EX_VAL (noOpenDrain port pin)) s' ∧
          setPinIsDigital chip s port pin true =
            Outcome.done PmReturn.PM_RET_OK (digitalEffect chip entry.u8_cnPin true s) ∧
          setPinIsInput chip (digitalEffect chip entry.u8_cnPin true s) port pin isInput =
            Outcome.done PmReturn.PM_RET_OK s' ∧
          setPinIsOpenDrain chip s' port pin isOpenDrain =
            Outcome.done (PmReturn.PM_RET_EX_VAL (noOpenDrain port pin)) s' ∧
          getBit (s'.TRIS (portOffset s port)) pin = some isInput ∧
          s'.CNPU = s.CNPU ∧ s'.CNPD = s.CNPD ∧ s'.RPINR = s.RPINR ∧ s'.RPOR = s.RPOR) := by
  refine ⟨?_, ?_, ?_, ?_, ?_, ?_⟩
  · intro r1 s1 h1 hr
    unfold configDigitalPinC
    rw [h1, PM_CHECK_FUNCTION_stop _ _ _ hr]
  · intro s1 r2 s2 h1 h2 hr
    unfold configDigitalPinC
    rw [h1, PM_CHECK_FUNCTION_go, h2, PM_CHECK_FUNCTION_stop _ _ _ hr]
  · intro s1 s2 r3 s3 h1 h2 h3 hr
    unfold configDigitalPinC
    rw [h1, PM_CHECK_FUNCTION_go, h2, PM_CHECK_FUNCTION_go, h3, PM_CHECK_FUNCTION_stop _ _ _ hr]
  · intro s1 s2 s3 r4 s4 h1 h2 h3 h4 hr
    unfold configDigitalPinC
    rw [h1, PM_CHECK_FUNCTION_go, h2, PM_CHECK_FUNCTION_go, h3, PM_CHECK_FUNCTION_go, h4,
      PM_CHECK_FUNCTION_stop _ _ _ hr]
  · intro s1 s2 s3 s4 r5 s5 h1 h2 h3 h4 h5
    unfold configDigitalPinC
    rw [h1, PM_CHECK_FUNCTION_go, h2, PM_CHECK_FUNCTION_go, h3, PM_CHECK_FUNCTION_go, h4,
      PM_CHECK_FUNCTION_go, h5]
    cases r5 with
    | PM_RET_OK => rfl
    | PM_RET_EX_VAL e => rfl
  · intro entry hex hmap hod hstride hopen
    subst hopen
    have hs1 : (digitalEffect chip entry.u8_cnPin true s).u16_ioPortControlOffset ≠ 0 := by
      simpa using hstride
    have hr : openDrainRet false port pin true =
        PmReturn.PM_RET_EX_VAL (noOpenDrain port pin) := by
      simp [openDrainRet]
    refine ⟨inputEffect port pin isInput (digitalEffect chip entry.u8_cnPin true s),
      ?_, ?_, ?_, ?_, ?_, rfl, rfl, rfl, rfl⟩
    · rw [configDigitalPinC_eq hex hmap hod s hstride]
      simp only [configRet, configEffect, hr]
      congr 1
    · rw [setPinIsDigital_eq hex hmap, digitalRet_true]
    · exact setPinIsInput_eq hex _ hs1 isInput
    · rw [setPinIsOpenDrain_eq hex hod _ (by simpa using hstride), hr]
      congr 1
    · simp [inputEffect, digitalEffect, portOffset,
        getBit_assignBit _ _ _ _ (pin_le_of_exists hex)]

/-- C12, amended, at pin A1 of the concrete part: the open-drain failure. -/
theorem configDigitalPinC_ordered_steps_witness :
    ∃ s', configDigitalPinC demoChip demoRegs 0 1 true true 1 =
          Outcome.done (PmReturn.PM_RET_EX_VAL (noOpenDrain 0 1)) s' ∧
      setPinIsDigital demoChip demoRegs 0 1 true =
        Outcome.done PmReturn.PM_RET_OK (digitalEffect demoChip 3 true demoRegs) ∧
      setPinIsInput demoChip (digitalEffect demoChip 3 true demoRegs) 0 1 true =
        Outcome.done PmReturn.PM_RET_OK s' ∧
      setPinIsOpenDrain demoChip s' 0 1 true =
        Outcome.done (PmReturn.PM_RET_EX_VAL (noOpenDrain 0 1)) s' ∧
      getBit (s'.TRIS (portOffset demoRegs 0)) 1 = some true ∧
      s'.CNPU = demoRegs.CNPU ∧ s'.CNPD = demoRegs.CNPD ∧ s'.RPINR = demoRegs.RPINR ∧
      s'.RPOR = demoRegs.RPOR :=
  (configDigitalPinC_ordered_steps demoChip demoRegs 0 1 true true 1).2.2.2.2.2 ⟨1, 3⟩
    (by decide) (by decide) (by decide) (by decide) rfl

/-- C13 fails on a part whose open-drain table marks pin A5, a pin the presence
table does not have: `digitalPinExists` answers `C_FALSE` and
`digitalOpenDrainPinExists`, which checks the bounds only and then returns the
table bit, answers `C_TRUE`, against its own comment (nonexistent ports or pins
return `C_FALSE`). -/
theorem digitalOpenDrainPinExists_ignores_presence :
    digitalPinExists looseOpenDrainChip 0 5 = some false ∧
      digitalOpenDrainPinExists looseOpenDrainChip 0 5 = some true := by
  decide

/-- C14 as stated fails for port C, pin 15 on a part that marks slot 31
remappable, has an output selector for it and uses 31 as `IN_PIN_PPS_VSS`:
`unmapPin` returns `PM_RET_OK`, yet the input selector `U1RXR`, which held 31,
still holds 31, and the output selector of slot 31, which has no `case` in the
`switch`, still holds 7 and not `OUT_FN_PPS_NULL`. -/
theorem unmapPin_slot_31 :
    rpNumber PORT_C_INDEX 15 = 31 ∧ wideRemapChip.isRemappable 31 = true ∧
      wideRemapChip.defRPINR RpInput.U1RXR = true ∧ wideRemapChip.defRPOR 31 = true ∧
      wideRemapChip.OUT_FN_PPS_NULL = 0 ∧
      ∃ s', unmapPin wideRemapChip mappedRegs PORT_C_INDEX 15 =
          Outcome.done PmReturn.PM_RET_OK s' ∧
        s'.RPINR RpInput.U1RXR = 31 ∧ s'.RPOR 31 = 7 := by
  refine ⟨by decide, by decide, by decide, by decide, by decide, _, unmapPin_eq _ _ _ _, ?_, ?_⟩
  · decide
  · decide

/-- C14, amended. For every chip, state, port and pin, `unmapPin` returns
`PM_RET_OK`. When the port is B or C and the slot `rp` is marked remappable:
every defined input selector of the sweep that held `rp` now holds
`IN_PIN_PPS_VSS` (so none of them holds `rp` unless `rp` is that value), every
other input selector is as before; the output selector of slot `rp` holds
`OUT_FN_PPS_NULL` when `rp <= 30` and the selector is defined, and is as before
when `rp > 30` or the selector is not defined; every other output selector is
as before, and nothing outside the selectors changes. In every other case no
register changes. -/
theorem unmapPin_effect (chip : Chip) (s : Regs) (port pin : Nat) :
    ∃ s', unmapPin chip s port pin = Outcome.done PmReturn.PM_RET_OK s' ∧
      (((port = PORT_B_INDEX ∨ port = PORT_C_INDEX) ∧
          chip.isRemappable (rpNumber port pin) = true) →
        (∀ r, chip.defRPINR r = true → s.RPINR r = rpNumber port pin →
          s'.RPINR r = chip.IN_PIN_PPS_VSS) ∧
        (∀ r, chip.defRPINR r = true → chip.IN_PIN_PPS_VSS ≠ rpNumber port pin →
          s'.RPINR r ≠ rpNumber port pin) ∧
        (∀ r, (chip.defRPINR r = false ∨ s.RPINR r ≠ rpNumber port pin) →
          s'.RPINR r = s.RPINR r) ∧
        (rpNumber port pin ≤ 30 → chip.defRPOR (rpNumber port pin) = true →
          s'.RPOR (rpNumber port pin) = chip.OUT_FN_PPS_NULL) ∧
        ((30 < rpNumber port pin ∨ chip.defRPOR (rpNumber port pin) = false) →
          s'.RPOR (rpNumber port pin) = s.RPOR (rpNumber port pin)) ∧
        (∀ n, n ≠ rpNumber port pin → s'.RPOR n = s.RPOR n) ∧
        s' = { s with RPINR := s'.RPINR, RPOR := s'.RPOR }) ∧
      (¬ ((port = PORT_B_INDEX ∨ port = PORT_C_INDEX) ∧
          chip.isRemappable (rpNumber port pin) = true) → s' = s) := by
  refine ⟨_, unmapPin_eq chip s port pin, ?_, ?_⟩
  · intro h
    rw [if_pos h]
    refine ⟨?_, ?_, ?_, ?_, ?_, ?_, rfl⟩
    · intro r hd hr
      simp [unmapInputs, hd, hr]
    · intro r hd hv
      simp only [unmapInputs, hd, true_and]
      split_ifs with hr
      · exact hv
      · exact hr
    · intro r hr
      rcases hr with hr | hr
      · simp [unmapInputs, hr]
      · simp [unmapInputs, hr]
    · intro h30 hd
      simp [unmapOutputs, h30, hd]
    · intro hno
      have hc : ¬ (rpNumber port pin ≤ 30 ∧ chip.defRPOR (rpNumber port pin) = true) := by
        rintro ⟨h30, hd⟩
        rcases hno with hno | hno
        · omega
        · rw [hd] at hno
          exact absurd hno (by decide)
      simp only [unmapOutputs, hc, if_false]
    · intro n hn
      simp only [unmapOutputs]
      split_ifs
      · simp [Function.update, hn]
      · rfl
  · intro h
    rw [if_neg h]

/-- C15. For every 16-bit word `f`, every bit index `i < 16` and every boolean
`v`, `setBit` passes its assertion and stores a 16-bit word `w` with
`getBit(w, i) = v` and `getBit(w, j) = getBit(f, j)` for every other `j < 16`;
no bit of the word other than bit `i` differs from `f`. -/
theorem setBit_getBit (f i : Nat) (v : Bool) (hf : f < 65536) (hi : i < 16) :
    ∃ w, setBit f i v = some w ∧ w < 65536 ∧ getBit w i = some v ∧
      (∀ j, j < 16 → j ≠ i → getBit w j = getBit f j) ∧
      ∀ j, j ≠ i → w.testBit j = f.testBit j := by
  refine ⟨storedWord f i v, setBit_eq f i v hi, ?_, getBit_storedWord_same f i v hi, ?_, ?_⟩
  · unfold storedWord
    split_ifs <;> exact Nat.mod_lt _ (by norm_num)
  · intro j hj hji
    exact getBit_storedWord_other f i j v hj (Ne.symm hji)
  · intro j hji
    rw [testBit_storedWord]
    have hij : ¬ i = j := fun h => hji h.symm
    by_cases hj : j < 16
    · simp [hj, hij]
    · have hlt : f < 2 ^ j := Nat.lt_of_lt_of_le hf (by
        calc 65536 = 2 ^ 16 := by norm_num
          _ ≤ 2 ^ j := Nat.pow_le_pow_right (by norm_num) (by omega))
      simp [hj, Nat.testBit_lt_two_pow hlt]

/-- C15 at the top bit: setting bit 15 of `0x7FFF`. -/
theorem setBit_getBit_witness :
    ∃ w, setBit 0x7FFF 15 true = some w ∧ w < 65536 ∧ getBit w 15 = some true ∧
      (∀ j, j < 16 → j ≠ 15 → getBit w j = getBit 0x7FFF j) ∧
      ∀ j, j ≠ 15 → w.testBit j = (0x7FFF : Nat).testBit j :=
  setBit_getBit 0x7FFF 15 true (by decide) (by decide)

/-- C16. For every existing pin, with the stride initialised,
`setPinIsInput(port, pin, b)` returns `PM_RET_OK`; afterwards bit `pin` of the
direction word at offset `port * stride` (the 16-bit product) from `TRISA`
reads `b`, every other bit of that word and every other direction word is as
before, and so is every register outside the direction family. -/
theorem setPinIsInput_frame (chip : Chip) (s : Regs) (port pin : Nat) (b : Bool)
    (hex : digitalPinExists chip port pin = some true)
    (hstride : s.u16_ioPortControlOffset ≠ 0) :
    ∃ s', setPinIsInput chip s port pin b = Outcome.done PmReturn.PM_RET_OK s' ∧
      getBit (s'.TRIS (portOffset s port)) pin = some b ∧
      sameExceptBit s.TRIS s'.TRIS (portOffset s port) pin ∧
      s' = { s with TRIS := s'.TRIS } := by
  refine ⟨inputEffect port pin b s, setPinIsInput_eq hex s hstride b, ?_, ?_, rfl⟩
  · exact getBit_assignBit _ _ _ _ (pin_le_of_exists hex)
  · exact sameExceptBit_assignBit _ _ _ _

/-- C16 at pin B15 of the concrete part. -/
theorem setPinIsInput_frame_witness :
    ∃ s', setPinIsInput demoChip demoRegs 1 15 true = Outcome.done PmReturn.PM_RET_OK s' ∧
      getBit (s'.TRIS (portOffset demoRegs 1)) 15 = some true ∧
      sameExceptBit demoRegs.TRIS s'.TRIS (portOffset demoRegs 1) 15 ∧
      s' = { demoRegs with TRIS := s'.TRIS } :=
  setPinIsInput_frame demoChip demoRegs 1 15 true (by decide) (by decide)

/-- C17 fails on pin A0 of the concrete part, which has analog channel 0 and
change-notification number 2: `setPinIsDigital(0, 0, true)` returns
`PM_RET_OK` but leaves the bit of channel 0 clear and sets bit 2 instead (the
number comes from the `u8_cnPin` member). -/
theorem setPinIsDigital_writes_cn_bit :
    digitalPinExists demoChip 0 0 = some true ∧
      demoChip.anCnMap[anCnIndex 0 0]? = some ⟨0, 2⟩ ∧
      ∃ s', setPinIsDigital demoChip demoRegs 0 0 true = Outcome.done PmReturn.PM_RET_OK s' ∧
        extendedBit s'.AD1PCFG 0 = some false ∧ extendedBit s'.AD1PCFG 2 = some true ∧
        extendedBit demoRegs.AD1PCFG 2 = some false := by
  have hex : digitalPinExists demoChip 0 0 = some true := by decide
  have hmap : demoChip.anCnMap[anCnIndex 0 0]? = some ⟨0, 2⟩ := by decide
  refine ⟨hex, hmap, _, setPinIsDigital_eq hex hmap demoRegs true, ?_, ?_, ?_⟩ <;> decide

/-- C18 fails on a part with pull-downs for pin B6, which has no
change-notification number: `setPinPullDirection(1, 6, -1)` returns the value
error, but only after `SET_EXTENDED_BIT(&CNPD1, u8_cnPin, C_TRUE)` has run
with the undefined number 255, which sets bit 15 of the word 15 words after
`CNPD1`. -/
theorem setPinPullDirection_down_writes_before_check :
    pullDownChip.HAS_PULL_DOWNS = true ∧ digitalPinExists pullDownChip 1 6 = some true ∧
      pullDownChip.anCnMap[anCnIndex 1 6]? = some ⟨255, pullDownChip.UNDEF_CN_PIN⟩ ∧
      ∃ s', setPinPullDirection pullDownChip demoRegs 1 6 (-1) =
          Outcome.done (PmReturn.PM_RET_EX_VAL (noPullUp 1 6)) s' ∧
        s'.CNPD 15 = 0x8000 ∧ demoRegs.CNPD 15 = 0 := by
  have hex : digitalPinExists pullDownChip 1 6 = some true := by decide
  have hmap : pullDownChip.anCnMap[anCnIndex 1 6]? = some ⟨255, pullDownChip.UNDEF_CN_PIN⟩ := by
    decide
  refine ⟨rfl, hex, hmap, _, setPinPullDirection_eq hex hmap demoRegs (by decide) (-1), ?_, ?_⟩
    <;> decide

/-- C19 as stated fails before `initIoConst` has run: for the existing pin A0
(change-notification number 2) `setPinPullDirection(0, 0, 1)` stops at
`ASSERT(u16_ioPortControlOffset)` instead of returning `PM_RET_OK`. -/
theorem setPinPullDirection_up_cold_stride :
    digitalPinExists demoChip 0 0 = some true ∧
      demoChip.anCnMap[anCnIndex 0 0]? = some ⟨0, 2⟩ ∧
      setPinPullDirection demoChip coldRegs 0 0 1 = Outcome.fault := by
  have hex : digitalPinExists demoChip 0 0 = some true := by decide
  refine ⟨hex, by decide, ?_⟩
  simp [setPinPullDirection, hex, coldRegs]

/-- C19, amended. For every existing pin with map entry `entry`, with the stride
initialised and for every `dir > 0`: without a change-notification number the
call returns the value error "Pull-ups do not exist on <letter><pin>." with
the state it was called on; with one it returns `PM_RET_OK`, the pull-up bit of
the pin reads set, on a part with pull-downs the pull-down bit reads clear, and
every other bit of the pull-up and pull-down words and every other register is
as before. -/
theorem setPinPullDirection_pull_up (chip : Chip) (s : Regs) (port pin : Nat) (dir : Int)
    (entry : AnCnMap) (hex : digitalPinExists chip port pin = some true)
    (hmap : chip.anCnMap[anCnIndex port pin]? = some entry)
    (hstride : s.u16_ioPortControlOffset ≠ 0) (hdir : 0 < dir) :
    (entry.u8_cnPin = chip.UNDEF_CN_PIN →
        setPinPullDirection chip s port pin dir =
          Outcome.done (PmReturn.PM_RET_EX_VAL (noPullUp port pin)) s) ∧
      (entry.u8_cnPin ≠ chip.UNDEF_CN_PIN →
        ∃ s', setPinPullDirection chip s port pin dir = Outcome.done PmReturn.PM_RET_OK s' ∧
          extendedBit s'.CNPU entry.u8_cnPin = some true ∧
          sameExceptBit s.CNPU s'.CNPU (entry.u8_cnPin >>> 4) (entry.u8_cnPin &&& 0xF) ∧
          (chip.HAS_PULL_DOWNS = true →
            extendedBit s'.CNPD entry.u8_cnPin = some false ∧
            sameExceptBit s.CNPD s'.CNPD (entry.u8_cnPin >>> 4) (entry.u8_cnPin &&& 0xF)) ∧
          (chip.HAS_PULL_DOWNS = false → s'.CNPD = s.CNPD) ∧
          s' = { s with CNPU := s'.CNPU, CNPD := s'.CNPD }) := by
  have h0 : ¬ dir = 0 := by omega
  have h1 : ¬ dir < 0 := by omega
  have h2 : 0 ≤ dir := by omega
  rw [setPinPullDirection_eq hex hmap s hstride dir]
  constructor
  · intro hcn
    have hr : pullRet chip entry.u8_cnPin port pin dir =
        PmReturn.PM_RET_EX_VAL (noPullUp port pin) := by
      simp [pullRet, h0, hdir, hcn]
    have he : pullEffect chip entry.u8_cnPin dir s = s := by
      apply Regs.ext <;> simp [pullEffect, hcn, h1]
    rw [hr, he]
  · intro hcn
    have hr : pullRet chip entry.u8_cnPin port pin dir = PmReturn.PM_RET_OK := by
      simp [pullRet, h0, hdir, hcn]
    rw [hr]
    refine ⟨_, rfl, ?_, ?_, ?_, ?_, rfl⟩
    · simp [pullEffect, hcn, h2, hdir, extendedBit_assignExtendedBit]
    · simp only [pullEffect, hcn, h2, hdir, ne_eq, not_false_eq_true, true_or, and_self, if_true,
        decide_True]
      exact sameExceptBit_assignBit _ _ _ _
    · intro hpd
      simp only [pullEffect, hcn, hpd, h1, ne_eq, not_false_eq_true, or_true, and_self, if_true,
        decide_False]
      exact ⟨extendedBit_assignExtendedBit _ _ _, sameExceptBit_assignBit _ _ _ _⟩
    · intro hpd
      simp [pullEffect, hpd]

/-- C19, amended, at pin A0 of the concrete part. -/
theorem setPinPullDirection_pull_up_witness :
    (2 = demoChip.UNDEF_CN_PIN →
        setPinPullDirection demoChip demoRegs 0 0 1 =
          Outcome.done (PmReturn.PM_RET_EX_VAL (noPullUp 0 0)) demoRegs) ∧
      (2 ≠ demoChip.UNDEF_CN_PIN →
        ∃ s', setPinPullDirection demoChip demoRegs 0 0 1 =
            Outcome.done PmReturn.PM_RET_OK s' ∧
          extendedBit s'.CNPU 2 = some true ∧
          sameExceptBit demoRegs.CNPU s'.CNPU (2 >>> 4) (2 &&& 0xF) ∧
          (demoChip.HAS_PULL_DOWNS = true →
            extendedBit s'.CNPD 2 = some false ∧
            sameExceptBit demoRegs.CNPD s'.CNPD (2 >>> 4) (2 &&& 0xF)) ∧
          (demoChip.HAS_PULL_DOWNS = false → s'.CNPD = demoRegs.CNPD) ∧
          s' = { demoRegs with CNPU := s'.CNPU, CNPD := s'.CNPD }) :=
  setPinPullDirection_pull_up demoChip demoRegs 0 0 1 ⟨0, 2⟩ (by decide) (by decide) (by decide)
    (by decide)

/-- C20. On a chip whose tables have their declared sizes, with the stride
initialised, `configDigitalPinC` returns `PM_RET_OK` exactly when the pin
exists, `isOpenDrain` implies the open-drain capability, `pullDir > 0` implies
a change-notification number, and `pullDir < 0` implies pull-down hardware and
a change-notification number; for an existing pin the forced-digital step and
the unmap step always return `PM_RET_OK`. -/
theorem configDigitalPinC_ok_iff (chip : Chip) (s : Regs) (port pin : Nat)
    (isInput isOpenDrain : Bool) (dir : Int) (hsz : chip.TablesSized)
    (hstride : s.u16_ioPortControlOffset ≠ 0) :
    ((∃ s', configDigitalPinC chip s port pin isInput isOpenDrain dir =
          Outcome.done PmReturn.PM_RET_OK s') ↔
        (digitalPinExists chip port pin = some true ∧
          (isOpenDrain = true → digitalOpenDrainPinExists chip port pin = some true) ∧
          (0 < dir → ∃ entry, chip.anCnMap[anCnIndex port pin]? = some entry ∧
            entry.u8_cnPin ≠ chip.UNDEF_CN_PIN) ∧
          (dir < 0 → chip.HAS_PULL_DOWNS = true ∧
            ∃ entry, chip.anCnMap[anCnIndex port pin]? = some entry ∧
              entry.u8_cnPin ≠ chip.UNDEF_CN_PIN))) ∧
      (digitalPinExists chip port pin = some true →
        (∃ s1, setPinIsDigital chip s port pin true = Outcome.done PmReturn.PM_RET_OK s1) ∧
        ∀ t, ∃ t', UNMAP_PIN chip t port pin = Outcome.done PmReturn.PM_RET_OK t') := by
  constructor
  · rcases hex : digitalPinExists chip port pin with _ | _ | _
    · simp [configDigitalPinC, setPinIsDigital, hex, PM_CHECK_FUNCTION]
    · simp [configDigitalPinC, setPinIsDigital, hex, PM_CHECK_FUNCTION]
    · obtain ⟨entry, hmap⟩ := anCnMap_lookup hsz hex
      obtain ⟨od, hod⟩ := openDrain_lookup hsz hex
      rw [configDigitalPinC_eq hex hmap hod s hstride]
      have hiff := configRet_ok_iff chip entry.u8_cnPin od port pin isOpenDrain dir
      constructor
      · rintro ⟨s', hs'⟩
        have hr : configRet chip entry.u8_cnPin od port pin isOpenDrain dir =
            PmReturn.PM_RET_OK := by
          injection hs'
        obtain ⟨h1, h2, h3⟩ := hiff.mp hr
        refine ⟨rfl, ?_, ?_, ?_⟩
        · intro h; rw [hod, h1 h]
        · intro h; exact ⟨entry, hmap, h2 h⟩
        · intro h; exact ⟨(h3 h).1, entry, hmap, (h3 h).2⟩
      · rintro ⟨-, h1, h2, h3⟩
        have hr : configRet chip entry.u8_cnPin od port pin isOpenDrain dir =
            PmReturn.PM_RET_OK := by
          apply hiff.mpr
          refine ⟨?_, ?_, ?_⟩
          · intro h
            have := h1 h
            rw [hod] at this
            exact Option.some.inj this
          · intro h
            obtain ⟨e, he, hcn⟩ := h2 h
            rw [hmap] at he
            cases he
            exact hcn
          · intro h
            obtain ⟨hp, e, he, hcn⟩ := h3 h
            rw [hmap] at he
            cases he
            exact ⟨hp, hcn⟩
        exact ⟨_, by rw [hr]⟩
  · intro hex
    obtain ⟨entry, hmap⟩ := anCnMap_lookup hsz hex
    refine ⟨⟨digitalEffect chip entry.u8_cnPin true s, ?_⟩,
      fun t => ⟨_, UNMAP_PIN_eq chip t port pin⟩⟩
    rw [setPinIsDigital_eq hex hmap, digitalRet_true]

/-- C20 at pin B5 of the concrete part, open-drain with a pull-down requested. -/
theorem configDigitalPinC_ok_iff_witness :
    ((∃ s', configDigitalPinC demoChip demoRegs 1 5 false true (-1) =
          Outcome.done PmReturn.PM_RET_OK s') ↔
        (digitalPinExists demoChip 1 5 = some true ∧
          (true = true → digitalOpenDrainPinExists demoChip 1 5 = some true) ∧
          ((0 : Int) < -1 → ∃ entry, demoChip.anCnMap[anCnIndex 1 5]? = some entry ∧
            entry.u8_cnPin ≠ demoChip.UNDEF_CN_PIN) ∧
          ((-1 : Int) < 0 → demoChip.HAS_PULL_DOWNS = true ∧
            ∃ entry, demoChip.anCnMap[anCnIndex 1 5]? = some entry ∧
              entry.u8_cnPin ≠ demoChip.UNDEF_CN_PIN))) ∧
      (digitalPinExists demoChip 1 5 = some true →
        (∃ s1, setPinIsDigital demoChip demoRegs 1 5 true =
          Outcome.done PmReturn.PM_RET_OK s1) ∧
        ∀ t, ∃ t', UNMAP_PIN demoChip t 1 5 = Outcome.done PmReturn.PM_RET_OK t') :=
  configDigitalPinC_ok_iff demoChip demoRegs 1 5 false true (-1) demoChip_sized (by decide)

end PyFuncsInC
